import Mathlib

/-!
Verification model of the signal dispatcher in `src/dispatch/dispatcher.py`.

Python objects are represented by numeric identities (`id` is injective on
live objects). A receiver handle is either a strong reference or a weak
reference; weak references resolve against an explicit aliveness environment
`alive : RId → Bool`, and garbage collection of a receiver is an explicit
event in the operation sequence. Receiver call behaviour is a pure function
`beh : RId → Except PyErr Nat` (returned value or raised exception), and
`excTb r` is the traceback that the interpreter reports for an exception
raised by receiver `r`.
-/

namespace Dispatch

/-- Identity of a receiver object (`id(receiver)`). -/
abbrev RId := Nat

/-- Identity of a sender object (`id(sender)`); `none` models the Python
value `None`, whose `_make_id` result is the distinguished `NONE_ID`. -/
abbrev SId := Nat

/-- A sender argument: a concrete object identity or Python `None`. -/
abbrev Sender := Option SId

/-- A hashable Python value usable as a `dispatch_uid`. -/
inductive PyVal where
  | num (n : Int)
  | str (s : String)
deriving DecidableEq, Repr

/-- Python truthiness of a `PyVal` (`0` and the empty string are falsy). -/
def PyVal.truthy : PyVal → Bool
  | .num n => n != 0
  | .str s => s != ""

/-- First component of a `lookup_key`: either a truthy `dispatch_uid`, or
`_make_id(receiver)` (where the receiver may itself be `None`, as in
`disconnect(receiver=None)`). -/
inductive KeyFst where
  | uid (u : PyVal)
  | rid (r : Option RId)
deriving DecidableEq, Repr

/-- `lookup_key = (dispatch_uid or receiver id, sender id)`. -/
abbrev LookupKey := KeyFst × Sender

/-- Key computation shared by `connect` and `disconnect`:
`if dispatch_uid: lookup_key = (dispatch_uid, _make_id(sender))
 else: lookup_key = (_make_id(receiver), _make_id(sender))`. -/
def lookupKey (dispatch_uid : Option PyVal) (rcv : Option RId) (sender : Sender) :
    LookupKey :=
  match dispatch_uid with
  | some u => if u.truthy then (.uid u, sender) else (.rid rcv, sender)
  | none => (.rid rcv, sender)

/-- A stored receiver handle: strong reference, or weak reference
(`weakref.ref` / `WeakMethod`). -/
inductive Handle where
  | strong (r : RId)
  | weak (r : RId)
deriving DecidableEq, Repr

/-- Dereference a handle: a weak handle whose referent has died yields
`none` (Python: calling the weakref returns `None`). -/
def Handle.deref (alive : RId → Bool) : Handle → Option RId
  | .strong r => some r
  | .weak r => if alive r then some r else none

/-- Whether a handle still resolves: strong handles always do, weak handles
only while the referent is alive. -/
def Handle.isLive (alive : RId → Bool) : Handle → Bool
  | .strong _ => true
  | .weak r => alive r

/-- A value of the sender cache: the `NO_RECEIVERS` sentinel or a list of
(still weak) receiver handles. -/
inductive CacheVal where
  | noReceivers
  | handles (hs : List Handle)
deriving DecidableEq, Repr

/-- One receiver-table entry. -/
abbrev Entry := LookupKey × Handle

/-- Write-through update of the cache association list (Python dict
assignment: overwrite the binding for the key, else add it). -/
def cacheSet (c : List (Sender × CacheVal)) (s : Sender) (v : CacheVal) :
    List (Sender × CacheVal) :=
  match c with
  | [] => [(s, v)]
  | (k, w) :: rest => if k = s then (s, v) :: rest else (k, w) :: cacheSet rest s v

/-- The `Signal` state: receiver table, caching mode, sender cache and the
dead-receivers flag. The lock is elided (operations are modelled as atomic). -/
structure Signal where
  receivers : List Entry
  use_caching : Bool
  sender_receivers_cache : List (Sender × CacheVal)
  dead_receivers : Bool
deriving DecidableEq, Repr

/-- `Signal.__init__`: empty table, empty caches, flag clear. -/
def Signal.init (use_caching : Bool) : Signal :=
  { receivers := []
    use_caching := use_caching
    sender_receivers_cache := []
    dead_receivers := false }

/-- `_clear_dead_receivers`: when the flag is set, drop entries whose weak
handle is dead and reset the flag. -/
def Signal.clearDead (alive : RId → Bool) (s : Signal) : Signal :=
  if s.dead_receivers then
    { s with
      dead_receivers := false
      receivers := s.receivers.filter fun e => e.2.isLive alive }
  else s

/-- `Signal.connect`: compute the key, compact, append `(key, handle)` only
when the key is absent, and clear the sender cache unconditionally. -/
def Signal.connect (alive : RId → Bool) (s : Signal) (receiver : RId)
    (sender : Sender) (weak : Bool) (dispatch_uid : Option PyVal) : Signal :=
  let key := lookupKey dispatch_uid (some receiver) sender
  let handle : Handle := if weak then .weak receiver else .strong receiver
  let s := s.clearDead alive
  let rcvs :=
    if s.receivers.any fun e => e.1 = key then s.receivers
    else s.receivers ++ [(key, handle)]
  { s with receivers := rcvs, sender_receivers_cache := [] }

/-- Remove the first entry with the given key, reporting whether one was
removed (the `for index in range(...)` loop with `del` and `break`). -/
def removeFirst (key : LookupKey) : List Entry → Bool × List Entry
  | [] => (false, [])
  | e :: rest =>
      if e.1 = key then (true, rest)
      else
        let (b, l) := removeFirst key rest
        (b, e :: l)

/-- `Signal.disconnect`: compute the same kind of key, compact, remove the
first matching entry, clear the cache, return whether something was removed. -/
def Signal.disconnect (alive : RId → Bool) (s : Signal) (receiver : Option RId)
    (sender : Sender) (dispatch_uid : Option PyVal) : Bool × Signal :=
  let key := lookupKey dispatch_uid receiver sender
  let s := s.clearDead alive
  let (disconnected, rcvs) := removeFirst key s.receivers
  (disconnected, { s with receivers := rcvs, sender_receivers_cache := [] })

/-- Whether a table entry matches a dispatched sender:
`r_senderkey == NONE_ID or r_senderkey == senderkey`. -/
def matchesSender (sender : Sender) (e : Entry) : Bool :=
  e.1.2 == none || e.1.2 == sender

/-- A Python exception object: an identity plus its (possibly not yet
attached) `__traceback__`. -/
structure PyErr where
  eid : Nat
  traceback : Option Nat
deriving DecidableEq, Repr

/-- An exception escaping a dispatcher entry point: either the `TypeError`
that `WeakKeyDictionary.get` / `__setitem__` raise when asked to build a
weak reference to a sender that cannot be weakly referenced (Python `None`,
modelled by the `none` sender; other senders are modelled as ordinary
weakly referenceable objects), or a receiver's own exception propagating
out of `send`. -/
inductive SendErr where
  | typeError
  | receiver (e : PyErr)
deriving DecidableEq, Repr

/-- The cache-miss path of `_live_receivers` (under the lock): compact,
scan the table in order, and — when caching is on — store the handle list
(or the `NO_RECEIVERS` sentinel) into the `WeakKeyDictionary`, which raises
`TypeError` for a sender that cannot be weakly referenced, after the
compaction but before any handle is resolved. -/
def Signal.liveRecompute (alive : RId → Bool) (s : Signal) (sender : Sender) :
    Except SendErr (List RId) × Signal :=
  let s := s.clearDead alive
  let hs := (s.receivers.filter (matchesSender sender)).map (·.2)
  if s.use_caching then
    if sender.isNone then (.error SendErr.typeError, s)
    else
      let v : CacheVal := if hs.isEmpty then .noReceivers else .handles hs
      (.ok (hs.filterMap (Handle.deref alive)),
       { s with sender_receivers_cache := cacheSet s.sender_receivers_cache sender v })
  else (.ok (hs.filterMap (Handle.deref alive)), s)

/-- `Signal._live_receivers`: consult the cache when caching is on and no
death is flagged — the `WeakKeyDictionary.get` raising `TypeError` for a
sender that cannot be weakly referenced — otherwise recompute from the
table; finally resolve the handles, silently dropping dead weak handles.
Returns the resolved receivers (or the escaping `TypeError`) and the
updated signal state. -/
def Signal.live_receivers (alive : RId → Bool) (s : Signal) (sender : Sender) :
    Except SendErr (List RId) × Signal :=
  if s.use_caching && !s.dead_receivers then
    if sender.isNone then (.error SendErr.typeError, s)
    else
      match List.lookup sender s.sender_receivers_cache with
      | some CacheVal.noReceivers => (.ok [], s)
      | some (CacheVal.handles hs) => (.ok (hs.filterMap (Handle.deref alive)), s)
      | none => s.liveRecompute alive sender
  else s.liveRecompute alive sender

/-- The fail-fast dispatch loop of `send`, run over the resolved live
receivers: returns the accumulated `(receiver, response)` pairs, the list of
receivers actually invoked, and the first raised error if any (at which
point the loop aborts). -/
def runSend (beh : RId → Except PyErr Nat) :
    List RId → List (RId × Nat) × List RId × Option PyErr
  | [] => ([], [], none)
  | r :: rest =>
      match beh r with
      | .error e => ([], [r], some e)
      | .ok v =>
          let (ps, tr, err) := runSend beh rest
          ((r, v) :: ps, r :: tr, err)

/-- `Signal.send`: `if not self.receivers or cache.get(sender) is
NO_RECEIVERS` — the `or` short-circuits, so an empty table returns `[]`
without touching the cache, while on a non-empty table the
`WeakKeyDictionary.get` raises `TypeError` for a sender that cannot be
weakly referenced before any receiver is invoked. Otherwise resolve live
receivers (propagating any `TypeError` from there) and dispatch fail-fast.
Returns the result (`.error` models the exception propagating out of
`send`, discarding the partial response list), the invocation trace, and
the updated state. -/
def Signal.send (alive : RId → Bool) (beh : RId → Except PyErr Nat) (s : Signal)
    (sender : Sender) :
    Except SendErr (List (RId × Nat)) × List RId × Signal :=
  if s.receivers.isEmpty then (.ok [], [], s)
  else if s.use_caching && sender.isNone then (.error SendErr.typeError, [], s)
  else if List.lookup sender s.sender_receivers_cache
      == some CacheVal.noReceivers then
    (.ok [], [], s)
  else
    match s.live_receivers alive sender with
    | (.error _, s2) => (.error SendErr.typeError, [], s2)
    | (.ok live, s2) =>
        (match (runSend beh live).2.2 with
         | some e => .error (SendErr.receiver e)
         | none => .ok (runSend beh live).1,
         (runSend beh live).2.1, s2)

/-- A per-receiver outcome recorded by `send_robust`. -/
inductive RResult where
  | ok (v : Nat)
  | err (e : PyErr)
deriving DecidableEq, Repr

/-- The robust dispatch loop: every receiver in the list is attempted; an
error is caught, given a traceback when it lacks one
(`if not hasattr(err, '__traceback__'): err.__traceback__ = sys.exc_info()[2]`)
and recorded in place of the response. -/
def runRobust (beh : RId → Except PyErr Nat) (excTb : RId → Nat) :
    List RId → List (RId × RResult)
  | [] => []
  | r :: rest =>
      let res :=
        match beh r with
        | .error e =>
            RResult.err
              (if e.traceback.isNone then { e with traceback := some (excTb r) } else e)
        | .ok v => RResult.ok v
      (r, res) :: runRobust beh excTb rest

/-- `Signal.send_robust`: same fast path and resolution as `send` — the
cache accesses are outside the per-receiver `try`, so their `TypeError`
for a sender that cannot be weakly referenced escapes — then the robust
dispatch loop, which catches every receiver error. -/
def Signal.send_robust (alive : RId → Bool) (beh : RId → Except PyErr Nat)
    (excTb : RId → Nat) (s : Signal) (sender : Sender) :
    Except SendErr (List (RId × RResult)) × Signal :=
  if s.receivers.isEmpty then (.ok [], s)
  else if s.use_caching && sender.isNone then (.error SendErr.typeError, s)
  else if List.lookup sender s.sender_receivers_cache
      == some CacheVal.noReceivers then
    (.ok [], s)
  else
    match s.live_receivers alive sender with
    | (.error _, s2) => (.error SendErr.typeError, s2)
    | (.ok live, s2) => (.ok (runRobust beh excTb live), s2)

/-! ### The world: a signal plus the garbage-collection environment -/

/-- A signal together with the set of already collected receivers and the
set of receivers for which `connect` registered a `weakref.finalize`
callback (which sets the dead-receivers flag on death). -/
structure World where
  sig : Signal
  deadSet : List RId
  finalized : List RId
deriving Repr

/-- Aliveness environment induced by the collected set. -/
def World.alive (w : World) : RId → Bool := fun r => !(w.deadSet.contains r)

/-- Initial world: fresh signal, nothing collected. -/
def World.init (use_caching : Bool) : World :=
  { sig := Signal.init use_caching, deadSet := [], finalized := [] }

/-- An externally observable operation on the signal. `gcDie r` is the
garbage collection of receiver `r`: it runs the finalize callback
(`_remove_receiver`, setting the flag) when one was registered for `r`. -/
inductive Op where
  | connect (r : RId) (sender : Sender) (weak : Bool) (uid : Option PyVal)
  | disconnect (r : Option RId) (sender : Sender) (uid : Option PyVal)
  | send (sender : Sender)
  | sendRobust (sender : Sender)
  | gcDie (r : RId)
deriving Repr

/-- One step of the world. -/
def World.step (beh : RId → Except PyErr Nat) (excTb : RId → Nat) (w : World) :
    Op → World
  | .connect r sender weak uid =>
      { w with
        sig := w.sig.connect w.alive r sender weak uid
        finalized := if weak then r :: w.finalized else w.finalized }
  | .disconnect r sender uid =>
      { w with sig := (w.sig.disconnect w.alive r sender uid).2 }
  | .send sender =>
      { w with sig := (w.sig.send w.alive beh sender).2.2 }
  | .sendRobust sender =>
      { w with sig := (w.sig.send_robust w.alive beh excTb sender).2 }
  | .gcDie r =>
      { w with
        deadSet := r :: w.deadSet
        sig :=
          if w.finalized.contains r then { w.sig with dead_receivers := true }
          else w.sig }

/-- Run a sequence of operations from a world. -/
def World.run (beh : RId → Except PyErr Nat) (excTb : RId → Nat) (w : World) :
    List Op → World
  | [] => w
  | op :: ops => (w.step beh excTb op).run beh excTb ops

/-! ### Specification-side definitions -/

/-- The handles of the table entries matching a sender, in table order. -/
def Signal.matchingHandles (s : Signal) (sender : Sender) : List Handle :=
  (s.receivers.filter (matchesSender sender)).map (·.2)

/-- Specification-side description of the receivers that are currently
connected for a sender: the table entries whose stored sender key is the
`NONE` marker or matches the sender, restricted to handles that still
resolve — computed directly from the table, ignoring the cache. -/
def Signal.connectedFor (alive : RId → Bool) (s : Signal) (sender : Sender) :
    List RId :=
  (s.matchingHandles sender).filterMap (Handle.deref alive)

/-- The receiver an (alive) handle refers to. -/
def Handle.target : Handle → RId
  | .strong r => r
  | .weak r => r

/-- Whether a handle survives the death of receiver `r` (strong handles do;
a weak handle survives unless it refers to `r`). -/
def notKilled (r : RId) : Handle → Bool
  | .strong _ => true
  | .weak x => x != r

/-- Coherence of the sender cache with the receiver table: a cached
`NO_RECEIVERS` sentinel means no table entry matches that sender, and a
cached handle list agrees with the table's matching handles up to handles
that no longer resolve. This is the invariant every reachable signal state
satisfies. -/
def Signal.CacheOK (alive : RId → Bool) (s : Signal) : Prop :=
  ∀ sn : Sender,
    (List.lookup sn s.sender_receivers_cache = some CacheVal.noReceivers →
      s.matchingHandles sn = []) ∧
    (∀ hs, List.lookup sn s.sender_receivers_cache = some (CacheVal.handles hs) →
      (s.matchingHandles sn).filter (Handle.isLive alive)
        = hs.filter (Handle.isLive alive))

/-- The receiver table has at most one entry per lookup key. -/
def Signal.keysNodup (s : Signal) : Prop :=
  (s.receivers.map (·.1)).Nodup

/-- The outcome `send_robust` records for one receiver: its returned value,
or the raised error with a traceback attached when it lacked one. -/
def robustRecord (beh : RId → Except PyErr Nat) (excTb : RId → Nat) (r : RId) :
    RResult :=
  match beh r with
  | .error e =>
      RResult.err
        (if e.traceback.isNone then { e with traceback := some (excTb r) } else e)
  | .ok v => RResult.ok v

/-! ### Basic lemmas about handles and resolution -/

theorem Handle.deref_eq (alive : RId → Bool) (h : Handle) :
    h.deref alive = if h.isLive alive then some h.target else none := by
  cases h with
  | strong r => rfl
  | weak r => by_cases hr : alive r <;> simp [deref, isLive, target, hr]

theorem filterMap_deref (alive : RId → Bool) (l : List Handle) :
    l.filterMap (Handle.deref alive)
      = (l.filter (Handle.isLive alive)).map Handle.target := by
  induction l with
  | nil => rfl
  | cons h t ih =>
      cases hh : h.isLive alive <;>
        simp [List.filterMap_cons, List.filter_cons, Handle.deref_eq, hh, ih]

theorem clearDead_use_caching (alive : RId → Bool) (s : Signal) :
    (s.clearDead alive).use_caching = s.use_caching := by
  unfold Signal.clearDead; split <;> rfl

theorem clearDead_cache (alive : RId → Bool) (s : Signal) :
    (s.clearDead alive).sender_receivers_cache = s.sender_receivers_cache := by
  unfold Signal.clearDead; split <;> rfl

theorem clearDead_flag (alive : RId → Bool) (s : Signal) :
    (s.clearDead alive).dead_receivers = false := by
  unfold Signal.clearDead; split <;> simp_all

theorem clearDead_receivers_sublist (alive : RId → Bool) (s : Signal) :
    List.Sublist (s.clearDead alive).receivers s.receivers := by
  unfold Signal.clearDead; split
  · exact List.filter_sublist _
  · exact List.Sublist.refl _

theorem matchingHandles_clearDead_sublist (alive : RId → Bool) (s : Signal)
    (sn : Sender) :
    List.Sublist ((s.clearDead alive).matchingHandles sn) (s.matchingHandles sn) :=
  ((clearDead_receivers_sublist alive s).filter _).map _

theorem filter_isLive_map_filter (alive : RId → Bool) (p : Entry → Bool)
    (l : List Entry) :
    (((l.filter fun e => e.2.isLive alive).filter p).map (·.2)).filter
        (Handle.isLive alive)
      = ((l.filter p).map (·.2)).filter (Handle.isLive alive) := by
  induction l with
  | nil => rfl
  | cons e t ih =>
      cases h1 : e.2.isLive alive <;> cases h2 : p e <;>
        simp only [List.filter_cons, List.map_cons, h1, h2, if_true, if_false,
          Bool.false_eq_true, ite_true, ite_false] <;>
        simp only [ih]

theorem matchingHandles_clearDead_filter (alive : RId → Bool) (s : Signal)
    (sn : Sender) :
    ((s.clearDead alive).matchingHandles sn).filter (Handle.isLive alive)
      = (s.matchingHandles sn).filter (Handle.isLive alive) := by
  unfold Signal.clearDead; split
  · exact filter_isLive_map_filter alive (matchesSender sn) s.receivers
  · rfl

theorem connectedFor_clearDead (alive : RId → Bool) (s : Signal) (sn : Sender) :
    (s.clearDead alive).connectedFor alive sn = s.connectedFor alive sn := by
  simp [Signal.connectedFor, filterMap_deref, matchingHandles_clearDead_filter]

/-! ### Cache association-list lemmas -/

theorem lookup_cacheSet_self (c : List (Sender × CacheVal)) (sn : Sender)
    (v : CacheVal) : List.lookup sn (cacheSet c sn v) = some v := by
  induction c with
  | nil => simp [cacheSet, List.lookup]
  | cons kv rest ih =>
      obtain ⟨k, w⟩ := kv
      by_cases hk : k = sn
      · subst hk; simp [cacheSet, List.lookup]
      · have hb : (sn == k) = false := beq_eq_false_iff_ne.mpr (Ne.symm hk)
        simp [cacheSet, hk, List.lookup, hb, ih]

theorem lookup_cacheSet_ne (c : List (Sender × CacheVal)) (sn sn' : Sender)
    (v : CacheVal) (hne : sn' ≠ sn) :
    List.lookup sn' (cacheSet c sn v) = List.lookup sn' c := by
  induction c with
  | nil =>
      have hb : (sn' == sn) = false := beq_eq_false_iff_ne.mpr hne
      simp [cacheSet, List.lookup, hb]
  | cons kv rest ih =>
      obtain ⟨k, w⟩ := kv
      by_cases hk : k = sn
      · subst hk
        have hb : (sn' == k) = false := beq_eq_false_iff_ne.mpr hne
        simp [cacheSet, List.lookup, hb]
      · simp [cacheSet, hk, List.lookup, ih]

/-! ### Invariant lemmas -/

theorem cacheOK_of_cache_nil (alive : RId → Bool) (s : Signal)
    (h : s.sender_receivers_cache = []) : s.CacheOK alive := by
  intro sn
  constructor
  · intro hl; rw [h] at hl; simp [List.lookup] at hl
  · intro hs hl; rw [h] at hl; simp [List.lookup] at hl

theorem cacheOK_clearDead (alive : RId → Bool) (s : Signal)
    (h : s.CacheOK alive) : (s.clearDead alive).CacheOK alive := by
  intro sn
  constructor
  · intro hl
    rw [clearDead_cache] at hl
    have h0 := (h sn).1 hl
    have hsub := matchingHandles_clearDead_sublist alive s sn
    rw [h0] at hsub
    exact List.sublist_nil.mp hsub
  · intro hs hl
    rw [clearDead_cache] at hl
    rw [matchingHandles_clearDead_filter]
    exact (h sn).2 hs hl

theorem isLive_cons_dead (dead : List RId) (r : RId) (h : Handle) :
    Handle.isLive (fun x => !((r :: dead).contains x)) h
      = (Handle.isLive (fun x => !(dead.contains x)) h && notKilled r h) := by
  cases h with
  | strong x => rfl
  | weak x =>
      by_cases hx : x = r <;>
        simp [Handle.isLive, notKilled, List.contains_cons, Bool.not_or,
          Bool.and_comm, hx]

theorem filter_isLive_cons_dead (dead : List RId) (r : RId) (l : List Handle) :
    l.filter (Handle.isLive fun x => !((r :: dead).contains x))
      = (l.filter (Handle.isLive fun x => !(dead.contains x))).filter
          (notKilled r) := by
  rw [List.filter_filter]
  exact List.filter_congr fun h _ => by rw [isLive_cons_dead, Bool.and_comm]

theorem cacheOK_death (dead : List RId) (r : RId) (s : Signal)
    (h : s.CacheOK fun x => !(dead.contains x)) :
    s.CacheOK fun x => !((r :: dead).contains x) := by
  intro sn
  constructor
  · exact (h sn).1
  · intro hs hl
    rw [filter_isLive_cons_dead, filter_isLive_cons_dead, (h sn).2 hs hl]

/-! ### Branch characterizations of `_live_receivers` -/

theorem liveRecompute_not_caching (alive : RId → Bool) (s : Signal)
    (sender : Sender) (h : s.use_caching = false) :
    s.liveRecompute alive sender
      = (Except.ok (s.connectedFor alive sender), s.clearDead alive) := by
  unfold Signal.liveRecompute
  rw [if_neg (by simp [clearDead_use_caching, h])]
  show (Except.ok ((s.clearDead alive).connectedFor alive sender), _) = _
  rw [connectedFor_clearDead]

theorem liveRecompute_raise (alive : RId → Bool) (s : Signal) (sender : Sender)
    (h : s.use_caching = true) (hn : sender.isNone = true) :
    s.liveRecompute alive sender
      = (Except.error SendErr.typeError, s.clearDead alive) := by
  unfold Signal.liveRecompute
  rw [if_pos (by simp [clearDead_use_caching, h]), if_pos hn]

theorem liveRecompute_store (alive : RId → Bool) (s : Signal) (sender : Sender)
    (h : s.use_caching = true) (hn : sender.isNone = false) :
    s.liveRecompute alive sender
      = (Except.ok (s.connectedFor alive sender),
         { s.clearDead alive with
           sender_receivers_cache :=
             cacheSet (s.clearDead alive).sender_receivers_cache sender
               (if ((s.clearDead alive).matchingHandles sender).isEmpty then
                  CacheVal.noReceivers
                else
                  CacheVal.handles ((s.clearDead alive).matchingHandles sender)) }) := by
  unfold Signal.liveRecompute
  rw [if_pos (by simp [clearDead_use_caching, h]), if_neg (by simp [hn])]
  show (Except.ok ((s.clearDead alive).connectedFor alive sender), _) = _
  rw [connectedFor_clearDead]
  rfl

theorem live_receivers_raise_get (alive : RId → Bool) (s : Signal)
    (sender : Sender) (h1 : (s.use_caching && !s.dead_receivers) = true)
    (hn : sender.isNone = true) :
    s.live_receivers alive sender = (Except.error SendErr.typeError, s) := by
  unfold Signal.live_receivers
  rw [if_pos h1, if_pos hn]

theorem live_receivers_hit_no (alive : RId → Bool) (s : Signal) (sender : Sender)
    (h1 : (s.use_caching && !s.dead_receivers) = true)
    (hn : sender.isNone = false)
    (h2 : List.lookup sender s.sender_receivers_cache = some CacheVal.noReceivers) :
    s.live_receivers alive sender = (Except.ok [], s) := by
  unfold Signal.live_receivers
  rw [if_pos h1, if_neg (by simp [hn]), h2]

theorem live_receivers_hit_handles (alive : RId → Bool) (s : Signal)
    (sender : Sender) (hs : List Handle)
    (h1 : (s.use_caching && !s.dead_receivers) = true)
    (hn : sender.isNone = false)
    (h2 : List.lookup sender s.sender_receivers_cache
        = some (CacheVal.handles hs)) :
    s.live_receivers alive sender
      = (Except.ok (hs.filterMap (Handle.deref alive)), s) := by
  unfold Signal.live_receivers
  rw [if_pos h1, if_neg (by simp [hn]), h2]

theorem live_receivers_to_recompute (alive : RId → Bool) (s : Signal)
    (sender : Sender)
    (hm : (s.use_caching && !s.dead_receivers) = false
        ∨ (sender.isNone = false
            ∧ List.lookup sender s.sender_receivers_cache = none)) :
    s.live_receivers alive sender = s.liveRecompute alive sender := by
  unfold Signal.live_receivers
  rcases hm with hm | ⟨hn, hl⟩
  · rw [if_neg (by simp [hm])]
  · by_cases hg : (s.use_caching && !s.dead_receivers) = true
    · rw [if_pos hg, if_neg (by simp [hn]), hl]
    · rw [if_neg hg]

theorem live_receivers_fst (alive : RId → Bool) (s : Signal) (sender : Sender)
    (h : s.CacheOK alive)
    (hwr : (s.use_caching && sender.isNone) = false) :
    (s.live_receivers alive sender).1
      = Except.ok (s.connectedFor alive sender) := by
  by_cases hg : (s.use_caching && !s.dead_receivers) = true
  · have huc : s.use_caching = true := by
      revert hg; cases s.use_caching <;> simp
    have hn : sender.isNone = false := by
      rw [huc] at hwr; simpa using hwr
    cases hlook : List.lookup sender s.sender_receivers_cache with
    | none =>
        rw [live_receivers_to_recompute alive s sender (Or.inr ⟨hn, hlook⟩),
          liveRecompute_store alive s sender huc hn]
    | some cv =>
        cases cv with
        | noReceivers =>
            rw [live_receivers_hit_no alive s sender hg hn hlook]
            show Except.ok ([] : List RId) = _
            simp [Signal.connectedFor, (h sender).1 hlook]
        | handles hs =>
            rw [live_receivers_hit_handles alive s sender hs hg hn hlook]
            show Except.ok (hs.filterMap (Handle.deref alive))
                = Except.ok (s.connectedFor alive sender)
            rw [filterMap_deref, ← (h sender).2 hs hlook, ← filterMap_deref]
            rfl
  · rw [live_receivers_to_recompute alive s sender
      (Or.inl (by simpa using hg))]
    by_cases huc : s.use_caching = true
    · have hn : sender.isNone = false := by
        rw [huc] at hwr; simpa using hwr
      rw [liveRecompute_store alive s sender huc hn]
    · rw [liveRecompute_not_caching alive s sender (by simpa using huc)]

theorem cacheOK_cacheSet_matching (alive : RId → Bool) (s : Signal)
    (sender : Sender) (v : CacheVal)
    (hval : v = if (s.matchingHandles sender).isEmpty then CacheVal.noReceivers
        else CacheVal.handles (s.matchingHandles sender))
    (h : s.CacheOK alive) :
    Signal.CacheOK alive
      { s with sender_receivers_cache := cacheSet s.sender_receivers_cache sender v } := by
  intro sn
  by_cases hsn : sn = sender
  · subst hsn
    by_cases hv : (s.matchingHandles sn).isEmpty
    · rw [if_pos hv] at hval
      subst hval
      constructor
      · intro _
        simpa [Signal.matchingHandles, List.isEmpty_iff] using hv
      · intro hs hl
        simp only [lookup_cacheSet_self] at hl
        simp at hl
    · rw [if_neg hv] at hval
      subst hval
      constructor
      · intro hl
        simp only [lookup_cacheSet_self] at hl
        simp at hl
      · intro hs hl
        simp only [lookup_cacheSet_self] at hl
        obtain rfl : s.matchingHandles sn = hs := by
          injection hl with h1
          injection h1
        simp [Signal.matchingHandles]
  · constructor
    · intro hl
      simp only [lookup_cacheSet_ne s.sender_receivers_cache sender sn _ hsn] at hl
      simpa [Signal.matchingHandles] using (h sn).1 hl
    · intro hs hl
      simp only [lookup_cacheSet_ne s.sender_receivers_cache sender sn _ hsn] at hl
      simpa [Signal.matchingHandles] using (h sn).2 hs hl

theorem cacheOK_liveRecompute (alive : RId → Bool) (s : Signal)
    (sender : Sender) (h : s.CacheOK alive) :
    ((s.liveRecompute alive sender).2).CacheOK alive := by
  by_cases huc : s.use_caching = true
  · by_cases hn : sender.isNone = true
    · rw [liveRecompute_raise alive s sender huc hn]
      exact cacheOK_clearDead alive s h
    · rw [liveRecompute_store alive s sender huc (Bool.eq_false_iff.mpr hn)]
      exact cacheOK_cacheSet_matching alive (s.clearDead alive) sender _ rfl
        (cacheOK_clearDead alive s h)
  · rw [liveRecompute_not_caching alive s sender (by simpa using huc)]
    exact cacheOK_clearDead alive s h

theorem cacheOK_live_receivers (alive : RId → Bool) (s : Signal) (sender : Sender)
    (h : s.CacheOK alive) :
    ((s.live_receivers alive sender).2).CacheOK alive := by
  by_cases hg : (s.use_caching && !s.dead_receivers) = true
  · by_cases hn : sender.isNone = true
    · rw [live_receivers_raise_get alive s sender hg hn]
      exact h
    · have hn' : sender.isNone = false := Bool.eq_false_iff.mpr hn
      cases hlook : List.lookup sender s.sender_receivers_cache with
      | none =>
          rw [live_receivers_to_recompute alive s sender (Or.inr ⟨hn', hlook⟩)]
          exact cacheOK_liveRecompute alive s sender h
      | some cv =>
          cases cv with
          | noReceivers =>
              rw [live_receivers_hit_no alive s sender hg hn' hlook]; exact h
          | handles hs =>
              rw [live_receivers_hit_handles alive s sender hs hg hn' hlook]
              exact h
  · rw [live_receivers_to_recompute alive s sender (Or.inl (by simpa using hg))]
    exact cacheOK_liveRecompute alive s sender h

/-! ### Characterizations of `connect`, `disconnect`, `send`, `send_robust` -/

theorem connect_eq (alive : RId → Bool) (s : Signal) (r : RId) (sn : Sender)
    (wk : Bool) (uid : Option PyVal) :
    s.connect alive r sn wk uid
      = { s.clearDead alive with
          receivers :=
            if (s.clearDead alive).receivers.any
                (fun e => e.1 = lookupKey uid (some r) sn) then
              (s.clearDead alive).receivers
            else
              (s.clearDead alive).receivers
                ++ [(lookupKey uid (some r) sn,
                     if wk then Handle.weak r else Handle.strong r)]
          sender_receivers_cache := [] } := rfl

theorem disconnect_eq (alive : RId → Bool) (s : Signal) (r : Option RId)
    (sn : Sender) (uid : Option PyVal) :
    s.disconnect alive r sn uid
      = ((removeFirst (lookupKey uid r sn) (s.clearDead alive).receivers).1,
         { s.clearDead alive with
           receivers :=
             (removeFirst (lookupKey uid r sn) (s.clearDead alive).receivers).2
           sender_receivers_cache := [] }) := by
  unfold Signal.disconnect
  rcases hrf : removeFirst (lookupKey uid r sn) (s.clearDead alive).receivers with
    ⟨b, l⟩
  simp [hrf]

theorem send_fast_empty (alive : RId → Bool) (beh : RId → Except PyErr Nat)
    (s : Signal) (sender : Sender) (h1 : s.receivers.isEmpty = true) :
    s.send alive beh sender = (Except.ok [], [], s) := by
  unfold Signal.send
  rw [if_pos h1]

theorem send_raise (alive : RId → Bool) (beh : RId → Except PyErr Nat)
    (s : Signal) (sender : Sender) (h1 : s.receivers.isEmpty = false)
    (h2 : (s.use_caching && sender.isNone) = true) :
    s.send alive beh sender = (Except.error SendErr.typeError, [], s) := by
  unfold Signal.send
  rw [if_neg (by simp [h1]), if_pos h2]

theorem send_fast_sentinel (alive : RId → Bool) (beh : RId → Except PyErr Nat)
    (s : Signal) (sender : Sender) (h1 : s.receivers.isEmpty = false)
    (h2 : (s.use_caching && sender.isNone) = false)
    (h3 : (List.lookup sender s.sender_receivers_cache
        == some CacheVal.noReceivers) = true) :
    s.send alive beh sender = (Except.ok [], [], s) := by
  unfold Signal.send
  rw [if_neg (by simp [h1]), if_neg (by simp [h2]), if_pos h3]

theorem send_dispatch (alive : RId → Bool) (beh : RId → Except PyErr Nat)
    (s : Signal) (sender : Sender) (h1 : s.receivers.isEmpty = false)
    (h2 : (s.use_caching && sender.isNone) = false)
    (h3 : (List.lookup sender s.sender_receivers_cache
        == some CacheVal.noReceivers) = false)
    (live : List RId) (s2 : Signal)
    (hl : s.live_receivers alive sender = (Except.ok live, s2)) :
    s.send alive beh sender
      = ((match (runSend beh live).2.2 with
          | some e => Except.error (SendErr.receiver e)
          | none => Except.ok (runSend beh live).1),
         (runSend beh live).2.1, s2) := by
  unfold Signal.send
  rw [if_neg (by simp [h1]), if_neg (by simp [h2]), if_neg (by simp [h3]), hl]

theorem send_dispatch_err (alive : RId → Bool) (beh : RId → Except PyErr Nat)
    (s : Signal) (sender : Sender) (h1 : s.receivers.isEmpty = false)
    (h2 : (s.use_caching && sender.isNone) = false)
    (h3 : (List.lookup sender s.sender_receivers_cache
        == some CacheVal.noReceivers) = false)
    (e : SendErr) (s2 : Signal)
    (hl : s.live_receivers alive sender = (Except.error e, s2)) :
    s.send alive beh sender = (Except.error SendErr.typeError, [], s2) := by
  unfold Signal.send
  rw [if_neg (by simp [h1]), if_neg (by simp [h2]), if_neg (by simp [h3]), hl]

theorem send_robust_fast_empty (alive : RId → Bool)
    (beh : RId → Except PyErr Nat) (excTb : RId → Nat) (s : Signal)
    (sender : Sender) (h1 : s.receivers.isEmpty = true) :
    s.send_robust alive beh excTb sender = (Except.ok [], s) := by
  unfold Signal.send_robust
  rw [if_pos h1]

theorem send_robust_raise (alive : RId → Bool) (beh : RId → Except PyErr Nat)
    (excTb : RId → Nat) (s : Signal) (sender : Sender)
    (h1 : s.receivers.isEmpty = false)
    (h2 : (s.use_caching && sender.isNone) = true) :
    s.send_robust alive beh excTb sender
      = (Except.error SendErr.typeError, s) := by
  unfold Signal.send_robust
  rw [if_neg (by simp [h1]), if_pos h2]

theorem send_robust_fast_sentinel (alive : RId → Bool)
    (beh : RId → Except PyErr Nat) (excTb : RId → Nat) (s : Signal)
    (sender : Sender) (h1 : s.receivers.isEmpty = false)
    (h2 : (s.use_caching && sender.isNone) = false)
    (h3 : (List.lookup sender s.sender_receivers_cache
        == some CacheVal.noReceivers) = true) :
    s.send_robust alive beh excTb sender = (Except.ok [], s) := by
  unfold Signal.send_robust
  rw [if_neg (by simp [h1]), if_neg (by simp [h2]), if_pos h3]

theorem send_robust_dispatch (alive : RId → Bool)
    (beh : RId → Except PyErr Nat) (excTb : RId → Nat) (s : Signal)
    (sender : Sender) (h1 : s.receivers.isEmpty = false)
    (h2 : (s.use_caching && sender.isNone) = false)
    (h3 : (List.lookup sender s.sender_receivers_cache
        == some CacheVal.noReceivers) = false)
    (live : List RId) (s2 : Signal)
    (hl : s.live_receivers alive sender = (Except.ok live, s2)) :
    s.send_robust alive beh excTb sender
      = (Except.ok (runRobust beh excTb live), s2) := by
  unfold Signal.send_robust
  rw [if_neg (by simp [h1]), if_neg (by simp [h2]), if_neg (by simp [h3]), hl]

theorem send_robust_dispatch_err (alive : RId → Bool)
    (beh : RId → Except PyErr Nat) (excTb : RId → Nat) (s : Signal)
    (sender : Sender) (h1 : s.receivers.isEmpty = false)
    (h2 : (s.use_caching && sender.isNone) = false)
    (h3 : (List.lookup sender s.sender_receivers_cache
        == some CacheVal.noReceivers) = false)
    (e : SendErr) (s2 : Signal)
    (hl : s.live_receivers alive sender = (Except.error e, s2)) :
    s.send_robust alive beh excTb sender
      = (Except.error SendErr.typeError, s2) := by
  unfold Signal.send_robust
  rw [if_neg (by simp [h1]), if_neg (by simp [h2]), if_neg (by simp [h3]), hl]

/-! ### Dispatch loop lemmas -/

theorem runSend_all_ok (beh : RId → Except PyErr Nat) (val : RId → Nat)
    (l : List RId) (h : ∀ r ∈ l, beh r = Except.ok (val r)) :
    runSend beh l = (l.map fun r => (r, val r), l, none) := by
  induction l with
  | nil => rfl
  | cons r t ih =>
      have hr := h r (List.mem_cons_self r t)
      simp [runSend, hr, ih fun x hx => h x (List.mem_cons_of_mem r hx)]

theorem runSend_fail (beh : RId → Except PyErr Nat) (val : RId → Nat)
    (l1 : List RId) (b : RId) (l2 : List RId) (e : PyErr)
    (hok : ∀ r ∈ l1, beh r = Except.ok (val r)) (hb : beh b = Except.error e) :
    runSend beh (l1 ++ b :: l2)
      = (l1.map fun r => (r, val r), l1 ++ [b], some e) := by
  induction l1 with
  | nil => simp [runSend, hb]
  | cons r t ih =>
      have hr := hok r (List.mem_cons_self r t)
      simp [runSend, hr, ih fun x hx => hok x (List.mem_cons_of_mem r hx)]

theorem runRobust_eq_map (beh : RId → Except PyErr Nat) (excTb : RId → Nat)
    (l : List RId) :
    runRobust beh excTb l = l.map fun r => (r, robustRecord beh excTb r) := by
  induction l with
  | nil => rfl
  | cons r t ih =>
      cases hb : beh r <;> simp [runRobust, robustRecord, hb, ih]

theorem robustRecord_traceback (beh : RId → Except PyErr Nat) (excTb : RId → Nat)
    (r : RId) (e' : PyErr) (h : robustRecord beh excTb r = RResult.err e') :
    e'.traceback.isSome := by
  unfold robustRecord at h
  cases hb : beh r with
  | ok v => rw [hb] at h; simp at h
  | error e =>
      rw [hb] at h
      injection h with h1
      subst h1
      cases htb : e.traceback <;> simp [htb]

theorem robustRecord_retains (beh : RId → Except PyErr Nat) (excTb : RId → Nat)
    (r : RId) (e : PyErr) (t : Nat) (h : beh r = Except.error e)
    (ht : e.traceback = some t) : robustRecord beh excTb r = RResult.err e := by
  unfold robustRecord
  rw [h]
  simp [ht]

/-! ### `removeFirst` lemmas -/

theorem removeFirst_sublist (key : LookupKey) (l : List Entry) :
    List.Sublist (removeFirst key l).2 l := by
  induction l with
  | nil => exact List.Sublist.refl _
  | cons e t ih =>
      rcases hrf : removeFirst key t with ⟨b, l2⟩
      rw [hrf] at ih
      by_cases he : e.1 = key
      · rw [removeFirst, if_pos he]
        exact List.sublist_cons_self e t
      · rw [removeFirst, if_neg he, hrf]
        exact List.Sublist.cons₂ e ih

theorem removeFirst_fst (key : LookupKey) (l : List Entry) :
    (removeFirst key l).1 = l.any fun e => decide (e.1 = key) := by
  induction l with
  | nil => rfl
  | cons e t ih =>
      rcases hrf : removeFirst key t with ⟨b, l2⟩
      rw [hrf] at ih
      by_cases he : e.1 = key
      · rw [removeFirst, if_pos he]
        simp [he]
      · rw [removeFirst, if_neg he, hrf]
        simpa [he] using ih

theorem removeFirst_not_found (key : LookupKey) (l : List Entry)
    (h : ∀ e ∈ l, e.1 ≠ key) : removeFirst key l = (false, l) := by
  induction l with
  | nil => rfl
  | cons e t ih =>
      rw [removeFirst, if_neg (h e (List.mem_cons_self e t)),
        ih fun x hx => h x (List.mem_cons_of_mem e hx)]

theorem removeFirst_no_second (key : LookupKey) (l : List Entry)
    (hnd : (l.map (·.1)).Nodup) :
    ∀ e ∈ (removeFirst key l).2, e.1 ≠ key := by
  induction l with
  | nil => intro e he; simp [removeFirst] at he
  | cons a t ih =>
      rw [List.map_cons, List.nodup_cons] at hnd
      by_cases ha : a.1 = key
      · rw [removeFirst, if_pos ha]
        intro e he hk
        have hm : e.1 ∈ List.map (fun x => x.1) t := List.mem_map_of_mem _ he
        rw [hk, ← ha] at hm
        exact hnd.1 hm
      · rcases hrf : removeFirst key t with ⟨b, l2⟩
        rw [removeFirst, if_neg ha, hrf]
        intro e he
        rcases List.mem_cons.mp he with rfl | he2
        · exact ha
        · have := ih hnd.2
          rw [hrf] at this
          exact this e he2

/-! ### Key-uniqueness invariant -/

theorem keysNodup_clearDead (alive : RId → Bool) (s : Signal)
    (h : s.keysNodup) : (s.clearDead alive).keysNodup := by
  unfold Signal.keysNodup at h ⊢
  exact ((clearDead_receivers_sublist alive s).map (·.1)).nodup h

theorem keysNodup_connect (alive : RId → Bool) (s : Signal) (r : RId)
    (sn : Sender) (wk : Bool) (uid : Option PyVal) (h : s.keysNodup) :
    (s.connect alive r sn wk uid).keysNodup := by
  have h1 := keysNodup_clearDead alive s h
  unfold Signal.keysNodup at h1 ⊢
  rw [connect_eq]
  by_cases hany : ((s.clearDead alive).receivers.any
      fun e => e.1 = lookupKey uid (some r) sn) = true
  · simpa [hany] using h1
  · rw [show ({ s.clearDead alive with
        receivers :=
          if (s.clearDead alive).receivers.any
              (fun e => e.1 = lookupKey uid (some r) sn) then
            (s.clearDead alive).receivers
          else
            (s.clearDead alive).receivers
              ++ [(lookupKey uid (some r) sn,
                   if wk then Handle.weak r else Handle.strong r)]
        sender_receivers_cache := [] } : Signal).receivers
      = if (s.clearDead alive).receivers.any
            (fun e => e.1 = lookupKey uid (some r) sn) then
          (s.clearDead alive).receivers
        else
          (s.clearDead alive).receivers
            ++ [(lookupKey uid (some r) sn,
                 if wk then Handle.weak r else Handle.strong r)] from rfl,
      if_neg hany]
    simp only [List.map_append, List.map_cons, List.map_nil]
    rw [List.nodup_append]
    refine ⟨h1, List.nodup_singleton _, ?_⟩
    intro k hk hk1
    simp only [List.mem_singleton] at hk1
    subst hk1
    rcases List.mem_map.mp hk with ⟨e, he, hek⟩
    simp only [List.any_eq_true, decide_eq_true_eq, not_exists] at hany
    exact absurd hek (by simpa using fun hkk => (hany e) ⟨he, hkk⟩)

theorem keysNodup_disconnect (alive : RId → Bool) (s : Signal) (r : Option RId)
    (sn : Sender) (uid : Option PyVal) (h : s.keysNodup) :
    ((s.disconnect alive r sn uid).2).keysNodup := by
  have h1 := keysNodup_clearDead alive s h
  unfold Signal.keysNodup at h1 ⊢
  rw [disconnect_eq]
  exact ((removeFirst_sublist _ _).map (·.1)).nodup h1

theorem liveRecompute_snd_cases (alive : RId → Bool) (s : Signal)
    (sender : Sender) :
    (s.liveRecompute alive sender).2 = s.clearDead alive
    ∨ ∃ v, (s.liveRecompute alive sender).2
        = { s.clearDead alive with
            sender_receivers_cache :=
              cacheSet (s.clearDead alive).sender_receivers_cache sender v } := by
  by_cases huc : s.use_caching = true
  · by_cases hn : sender.isNone = true
    · rw [liveRecompute_raise alive s sender huc hn]
      exact Or.inl rfl
    · rw [liveRecompute_store alive s sender huc (Bool.eq_false_iff.mpr hn)]
      exact Or.inr ⟨_, rfl⟩
  · rw [liveRecompute_not_caching alive s sender (Bool.eq_false_iff.mpr huc)]
    exact Or.inl rfl

theorem live_receivers_snd_cases (alive : RId → Bool) (s : Signal)
    (sender : Sender) :
    (s.live_receivers alive sender).2 = s
    ∨ (s.live_receivers alive sender).2 = s.clearDead alive
    ∨ ∃ v, (s.live_receivers alive sender).2
        = { s.clearDead alive with
            sender_receivers_cache :=
              cacheSet (s.clearDead alive).sender_receivers_cache sender v } := by
  by_cases hg : (s.use_caching && !s.dead_receivers) = true
  · by_cases hn : sender.isNone = true
    · rw [live_receivers_raise_get alive s sender hg hn]
      exact Or.inl rfl
    · have hn' := Bool.eq_false_iff.mpr hn
      cases hlook : List.lookup sender s.sender_receivers_cache with
      | none =>
          rw [live_receivers_to_recompute alive s sender (Or.inr ⟨hn', hlook⟩)]
          exact Or.inr (liveRecompute_snd_cases alive s sender)
      | some cv =>
          cases cv with
          | noReceivers =>
              rw [live_receivers_hit_no alive s sender hg hn' hlook]
              exact Or.inl rfl
          | handles hs =>
              rw [live_receivers_hit_handles alive s sender hs hg hn' hlook]
              exact Or.inl rfl
  · rw [live_receivers_to_recompute alive s sender
      (Or.inl (Bool.eq_false_iff.mpr hg))]
    exact Or.inr (liveRecompute_snd_cases alive s sender)

theorem live_receivers_snd_not_caching (alive : RId → Bool) (s : Signal)
    (sender : Sender) (h : s.use_caching = false) :
    (s.live_receivers alive sender).2 = s.clearDead alive := by
  rw [live_receivers_to_recompute alive s sender (Or.inl (by simp [h])),
    liveRecompute_not_caching alive s sender h]

theorem keysNodup_live_receivers (alive : RId → Bool) (s : Signal)
    (sender : Sender) (h : s.keysNodup) :
    ((s.live_receivers alive sender).2).keysNodup := by
  rcases live_receivers_snd_cases alive s sender with h1 | h1 | ⟨v, h1⟩ <;>
    rw [h1]
  · exact h
  · exact keysNodup_clearDead alive s h
  · exact keysNodup_clearDead alive s h

theorem send_snd_cases (alive : RId → Bool) (beh : RId → Except PyErr Nat)
    (s : Signal) (sender : Sender) :
    (s.send alive beh sender).2.2 = s
    ∨ (s.send alive beh sender).2.2 = (s.live_receivers alive sender).2 := by
  by_cases h1 : s.receivers.isEmpty = true
  · rw [send_fast_empty alive beh s sender h1]
    exact Or.inl rfl
  · have h1' := Bool.eq_false_iff.mpr h1
    by_cases h2 : (s.use_caching && sender.isNone) = true
    · rw [send_raise alive beh s sender h1' h2]
      exact Or.inl rfl
    · have h2' := Bool.eq_false_iff.mpr h2
      by_cases h3 : (List.lookup sender s.sender_receivers_cache
          == some CacheVal.noReceivers) = true
      · rw [send_fast_sentinel alive beh s sender h1' h2' h3]
        exact Or.inl rfl
      · have h3' := Bool.eq_false_iff.mpr h3
        rcases hl : s.live_receivers alive sender with ⟨res, s2⟩
        cases res with
        | error e =>
            rw [send_dispatch_err alive beh s sender h1' h2' h3' e s2 hl]
            exact Or.inr rfl
        | ok live =>
            rw [send_dispatch alive beh s sender h1' h2' h3' live s2 hl]
            exact Or.inr rfl

theorem send_robust_snd_cases (alive : RId → Bool) (beh : RId → Except PyErr Nat)
    (excTb : RId → Nat) (s : Signal) (sender : Sender) :
    (s.send_robust alive beh excTb sender).2 = s
    ∨ (s.send_robust alive beh excTb sender).2
        = (s.live_receivers alive sender).2 := by
  by_cases h1 : s.receivers.isEmpty = true
  · rw [send_robust_fast_empty alive beh excTb s sender h1]
    exact Or.inl rfl
  · have h1' := Bool.eq_false_iff.mpr h1
    by_cases h2 : (s.use_caching && sender.isNone) = true
    · rw [send_robust_raise alive beh excTb s sender h1' h2]
      exact Or.inl rfl
    · have h2' := Bool.eq_false_iff.mpr h2
      by_cases h3 : (List.lookup sender s.sender_receivers_cache
          == some CacheVal.noReceivers) = true
      · rw [send_robust_fast_sentinel alive beh excTb s sender h1' h2' h3]
        exact Or.inl rfl
      · have h3' := Bool.eq_false_iff.mpr h3
        rcases hl : s.live_receivers alive sender with ⟨res, s2⟩
        cases res with
        | error e =>
            rw [send_robust_dispatch_err alive beh excTb s sender h1' h2' h3'
              e s2 hl]
            exact Or.inr rfl
        | ok live =>
            rw [send_robust_dispatch alive beh excTb s sender h1' h2' h3'
              live s2 hl]
            exact Or.inr rfl

theorem connect_cache (alive : RId → Bool) (s : Signal) (r : RId) (sn : Sender)
    (wk : Bool) (uid : Option PyVal) :
    (s.connect alive r sn wk uid).sender_receivers_cache = [] := by
  rw [connect_eq]

theorem disconnect_cache (alive : RId → Bool) (s : Signal) (r : Option RId)
    (sn : Sender) (uid : Option PyVal) :
    ((s.disconnect alive r sn uid).2).sender_receivers_cache = [] := by
  rw [disconnect_eq]

theorem connect_use_caching (alive : RId → Bool) (s : Signal) (r : RId)
    (sn : Sender) (wk : Bool) (uid : Option PyVal) :
    (s.connect alive r sn wk uid).use_caching = s.use_caching := by
  rw [connect_eq]
  exact clearDead_use_caching alive s

theorem disconnect_use_caching (alive : RId → Bool) (s : Signal) (r : Option RId)
    (sn : Sender) (uid : Option PyVal) :
    ((s.disconnect alive r sn uid).2).use_caching = s.use_caching := by
  rw [disconnect_eq]
  exact clearDead_use_caching alive s

/-! ### Invariants along an operation sequence -/

theorem step_cacheOK (beh : RId → Except PyErr Nat) (excTb : RId → Nat)
    (w : World) (op : Op) (h : w.sig.CacheOK w.alive) :
    ((w.step beh excTb op).sig).CacheOK (w.step beh excTb op).alive := by
  cases op with
  | connect r sender weak uid =>
      exact cacheOK_of_cache_nil _ _ (connect_cache w.alive w.sig r sender weak uid)
  | disconnect r sender uid =>
      exact cacheOK_of_cache_nil _ _ (disconnect_cache w.alive w.sig r sender uid)
  | send sender =>
      show ((w.sig.send w.alive beh sender).2.2).CacheOK w.alive
      rcases send_snd_cases w.alive beh w.sig sender with h1 | h1 <;> rw [h1]
      · exact h
      · exact cacheOK_live_receivers w.alive w.sig sender h
  | sendRobust sender =>
      show ((w.sig.send_robust w.alive beh excTb sender).2).CacheOK w.alive
      rcases send_robust_snd_cases w.alive beh excTb w.sig sender with h1 | h1 <;>
        rw [h1]
      · exact h
      · exact cacheOK_live_receivers w.alive w.sig sender h
  | gcDie r =>
      simp only [World.step]
      split <;> exact cacheOK_death w.deadSet r w.sig h

theorem run_cacheOK (beh : RId → Except PyErr Nat) (excTb : RId → Nat)
    (ops : List Op) (w : World) (h : w.sig.CacheOK w.alive) :
    ((w.run beh excTb ops).sig).CacheOK (w.run beh excTb ops).alive := by
  induction ops generalizing w with
  | nil => exact h
  | cons op ops ih => exact ih _ (step_cacheOK beh excTb w op h)

theorem step_keysNodup (beh : RId → Except PyErr Nat) (excTb : RId → Nat)
    (w : World) (op : Op) (h : w.sig.keysNodup) :
    ((w.step beh excTb op).sig).keysNodup := by
  cases op with
  | connect r sender weak uid => exact keysNodup_connect _ _ _ _ _ _ h
  | disconnect r sender uid => exact keysNodup_disconnect _ _ _ _ _ h
  | send sender =>
      show ((w.sig.send w.alive beh sender).2.2).keysNodup
      rcases send_snd_cases w.alive beh w.sig sender with h1 | h1 <;> rw [h1]
      · exact h
      · exact keysNodup_live_receivers w.alive w.sig sender h
  | sendRobust sender =>
      show ((w.sig.send_robust w.alive beh excTb sender).2).keysNodup
      rcases send_robust_snd_cases w.alive beh excTb w.sig sender with h1 | h1 <;>
        rw [h1]
      · exact h
      · exact keysNodup_live_receivers w.alive w.sig sender h
  | gcDie r =>
      simp only [World.step]
      split <;> exact h

theorem run_keysNodup (beh : RId → Except PyErr Nat) (excTb : RId → Nat)
    (ops : List Op) (w : World) (h : w.sig.keysNodup) :
    ((w.run beh excTb ops).sig).keysNodup := by
  induction ops generalizing w with
  | nil => exact h
  | cons op ops ih => exact ih _ (step_keysNodup beh excTb w op h)

theorem step_nocache (beh : RId → Except PyErr Nat) (excTb : RId → Nat)
    (w : World) (op : Op) (h1 : w.sig.use_caching = false)
    (h2 : w.sig.sender_receivers_cache = []) :
    ((w.step beh excTb op).sig).use_caching = false
      ∧ ((w.step beh excTb op).sig).sender_receivers_cache = [] := by
  cases op with
  | connect r sender weak uid =>
      exact ⟨(connect_use_caching _ _ _ _ _ _).trans h1, connect_cache _ _ _ _ _ _⟩
  | disconnect r sender uid =>
      exact ⟨(disconnect_use_caching _ _ _ _ _).trans h1, disconnect_cache _ _ _ _ _⟩
  | send sender =>
      show ((w.sig.send w.alive beh sender).2.2).use_caching = false
        ∧ ((w.sig.send w.alive beh sender).2.2).sender_receivers_cache = []
      rcases send_snd_cases w.alive beh w.sig sender with hc | hc <;> rw [hc]
      · exact ⟨h1, h2⟩
      · rw [live_receivers_snd_not_caching w.alive w.sig sender h1]
        exact ⟨(clearDead_use_caching _ _).trans h1, (clearDead_cache _ _).trans h2⟩
  | sendRobust sender =>
      show ((w.sig.send_robust w.alive beh excTb sender).2).use_caching = false
        ∧ ((w.sig.send_robust w.alive beh excTb sender).2).sender_receivers_cache = []
      rcases send_robust_snd_cases w.alive beh excTb w.sig sender with hc | hc <;>
        rw [hc]
      · exact ⟨h1, h2⟩
      · rw [live_receivers_snd_not_caching w.alive w.sig sender h1]
        exact ⟨(clearDead_use_caching _ _).trans h1, (clearDead_cache _ _).trans h2⟩
  | gcDie r =>
      simp only [World.step]
      split <;> exact ⟨h1, h2⟩

theorem run_nocache (beh : RId → Except PyErr Nat) (excTb : RId → Nat)
    (ops : List Op) (w : World) (h1 : w.sig.use_caching = false)
    (h2 : w.sig.sender_receivers_cache = []) :
    ((w.run beh excTb ops).sig).use_caching = false
      ∧ ((w.run beh excTb ops).sig).sender_receivers_cache = [] := by
  induction ops generalizing w with
  | nil => exact ⟨h1, h2⟩
  | cons op ops ih =>
      exact ih _ (step_nocache beh excTb w op h1 h2).1
        (step_nocache beh excTb w op h1 h2).2

/-! ### The dispatch trace of `send` -/

theorem connectedFor_nil_of_empty (alive : RId → Bool) (s : Signal)
    (sender : Sender) (h : s.receivers.isEmpty = true) :
    s.connectedFor alive sender = [] := by
  simp [Signal.connectedFor, Signal.matchingHandles, List.isEmpty_iff.mp h]

theorem connectedFor_nil_of_sentinel (alive : RId → Bool) (s : Signal)
    (sender : Sender) (hc : s.CacheOK alive)
    (h : List.lookup sender s.sender_receivers_cache
        = some CacheVal.noReceivers) :
    s.connectedFor alive sender = [] := by
  simp [Signal.connectedFor, (hc sender).1 h]

theorem send_dispatch_conn (alive : RId → Bool) (beh : RId → Except PyErr Nat)
    (s : Signal) (sender : Sender) (hc : s.CacheOK alive)
    (hwr : (s.use_caching && sender.isNone) = false)
    (h1 : s.receivers.isEmpty = false)
    (h3 : (List.lookup sender s.sender_receivers_cache
        == some CacheVal.noReceivers) = false) :
    s.send alive beh sender
      = ((match (runSend beh (s.connectedFor alive sender)).2.2 with
          | some e => Except.error (SendErr.receiver e)
          | none => Except.ok (runSend beh (s.connectedFor alive sender)).1),
         (runSend beh (s.connectedFor alive sender)).2.1,
         (s.live_receivers alive sender).2) := by
  rcases hl : s.live_receivers alive sender with ⟨res, s2⟩
  have hres : res = Except.ok (s.connectedFor alive sender) := by
    have hfst := live_receivers_fst alive s sender hc hwr
    rw [hl] at hfst
    exact hfst
  subst hres
  rw [send_dispatch alive beh s sender h1 hwr h3 _ _ hl]

theorem send_trace_connected (alive : RId → Bool) (beh : RId → Except PyErr Nat)
    (val : RId → Nat) (s : Signal) (sender : Sender) (hc : s.CacheOK alive)
    (hwr : (s.use_caching && sender.isNone) = false)
    (hok : ∀ r, beh r = Except.ok (val r)) :
    (s.send alive beh sender).2.1 = s.connectedFor alive sender := by
  by_cases h1 : s.receivers.isEmpty = true
  · rw [send_fast_empty alive beh s sender h1,
      connectedFor_nil_of_empty alive s sender h1]
  · have h1' := Bool.eq_false_iff.mpr h1
    by_cases h3 : (List.lookup sender s.sender_receivers_cache
        == some CacheVal.noReceivers) = true
    · rw [send_fast_sentinel alive beh s sender h1' hwr h3,
        connectedFor_nil_of_sentinel alive s sender hc (beq_iff_eq.mp h3)]
    · have h3' := Bool.eq_false_iff.mpr h3
      rw [send_dispatch_conn alive beh s sender hc hwr h1' h3']
      show (runSend beh (s.connectedFor alive sender)).2.1 = _
      rw [runSend_all_ok beh val _ fun r _ => hok r]

/-! ### Small auxiliary lemmas -/

theorem clearDead_of_flag_false (alive : RId → Bool) (s : Signal)
    (h : s.dead_receivers = false) : s.clearDead alive = s := by
  unfold Signal.clearDead
  rw [if_neg (by simp [h])]

theorem connect_receivers (alive : RId → Bool) (s : Signal) (r : RId)
    (sn : Sender) (wk : Bool) (uid : Option PyVal) :
    (s.connect alive r sn wk uid).receivers
      = if (s.clearDead alive).receivers.any
            (fun e => e.1 = lookupKey uid (some r) sn) then
          (s.clearDead alive).receivers
        else
          (s.clearDead alive).receivers
            ++ [(lookupKey uid (some r) sn,
                 if wk then Handle.weak r else Handle.strong r)] := by
  rw [connect_eq]

theorem connect_flag (alive : RId → Bool) (s : Signal) (r : RId) (sn : Sender)
    (wk : Bool) (uid : Option PyVal) :
    (s.connect alive r sn wk uid).dead_receivers = false := by
  rw [connect_eq]
  exact clearDead_flag alive s

theorem disconnect_flag (alive : RId → Bool) (s : Signal) (r : Option RId)
    (sn : Sender) (uid : Option PyVal) :
    ((s.disconnect alive r sn uid).2).dead_receivers = false := by
  rw [disconnect_eq]
  exact clearDead_flag alive s

theorem lookupKey_snd (uid : Option PyVal) (rcv : Option RId) (sn : Sender) :
    (lookupKey uid rcv sn).2 = sn := by
  unfold lookupKey
  cases uid with
  | none => rfl
  | some u => by_cases h : u.truthy <;> simp [h]

theorem connect_init_receivers (uc : Bool) (alive : RId → Bool) (r : RId)
    (sn : Sender) (wk : Bool) (uid : Option PyVal) :
    ((Signal.init uc).connect alive r sn wk uid).receivers
      = [(lookupKey uid (some r) sn,
          if wk then Handle.weak r else Handle.strong r)] := by
  rw [connect_eq]
  simp [Signal.init, Signal.clearDead]

theorem runSend_singleton (beh : RId → Except PyErr Nat) (r : RId) :
    (runSend beh [r]).2.1 = [r] := by
  cases hb : beh r <;> simp [runSend, hb]

theorem runSend_trace_subset (beh : RId → Except PyErr Nat) (l : List RId) :
    ∀ r ∈ (runSend beh l).2.1, r ∈ l := by
  induction l with
  | nil => intro r hr; simp [runSend] at hr
  | cons a t ih =>
      intro r hr
      cases hb : beh a with
      | error e =>
          rw [runSend, hb] at hr
          simp only [List.mem_singleton] at hr
          exact hr ▸ List.mem_cons_self a t
      | ok v =>
          rw [runSend, hb] at hr
          rcases hrs : runSend beh t with ⟨ps, tr⟩
          rcases tr with ⟨tr, err⟩
          rw [hrs] at hr
          simp only [List.mem_cons] at hr
          rcases hr with rfl | hr
          · exact List.mem_cons_self r t
          · have := ih r (by rw [hrs]; exact hr)
            exact List.mem_cons_of_mem a this

theorem connectedFor_target_mem (alive : RId → Bool) (s : Signal)
    (sender : Sender) (r : RId) (h : r ∈ s.connectedFor alive sender) :
    ∃ e ∈ s.receivers, e.2.target = r := by
  rw [Signal.connectedFor, filterMap_deref] at h
  rcases List.mem_map.mp h with ⟨hd, hmem, htgt⟩
  have h2 := List.mem_of_mem_filter hmem
  rw [Signal.matchingHandles] at h2
  rcases List.mem_map.mp h2 with ⟨e, he, hee⟩
  exact ⟨e, List.mem_of_mem_filter he, by rw [hee, htgt]⟩

theorem send_trace_subset_connected (alive : RId → Bool)
    (beh : RId → Except PyErr Nat) (s : Signal) (sender : Sender)
    (hc : s.CacheOK alive) :
    ∀ r ∈ (s.send alive beh sender).2.1, r ∈ s.connectedFor alive sender := by
  by_cases h1 : s.receivers.isEmpty = true
  · rw [send_fast_empty alive beh s sender h1]
    intro r hr
    simp at hr
  · have h1' := Bool.eq_false_iff.mpr h1
    by_cases h2 : (s.use_caching && sender.isNone) = true
    · rw [send_raise alive beh s sender h1' h2]
      intro r hr
      simp at hr
    · have h2' := Bool.eq_false_iff.mpr h2
      by_cases h3 : (List.lookup sender s.sender_receivers_cache
          == some CacheVal.noReceivers) = true
      · rw [send_fast_sentinel alive beh s sender h1' h2' h3]
        intro r hr
        simp at hr
      · have h3' := Bool.eq_false_iff.mpr h3
        rw [send_dispatch_conn alive beh s sender hc h2' h1' h3']
        intro r hr
        exact runSend_trace_subset beh _ r hr

theorem send_trace_empty (alive : RId → Bool) (beh : RId → Except PyErr Nat)
    (s : Signal) (sender : Sender) (hc : s.CacheOK alive)
    (hconn : s.connectedFor alive sender = []) :
    (s.send alive beh sender).2.1 = [] := by
  by_cases h1 : s.receivers.isEmpty = true
  · rw [send_fast_empty alive beh s sender h1]
  · have h1' := Bool.eq_false_iff.mpr h1
    by_cases h2 : (s.use_caching && sender.isNone) = true
    · rw [send_raise alive beh s sender h1' h2]
    · have h2' := Bool.eq_false_iff.mpr h2
      by_cases h3 : (List.lookup sender s.sender_receivers_cache
          == some CacheVal.noReceivers) = true
      · rw [send_fast_sentinel alive beh s sender h1' h2' h3]
      · have h3' := Bool.eq_false_iff.mpr h3
        rw [send_dispatch_conn alive beh s sender hc h2' h1' h3']
        show (runSend beh (s.connectedFor alive sender)).2.1 = []
        rw [hconn]
        rfl

theorem send_trace_single (alive : RId → Bool) (beh : RId → Except PyErr Nat)
    (s : Signal) (sender : Sender) (r : RId) (hc : s.CacheOK alive)
    (hwr : (s.use_caching && sender.isNone) = false)
    (hconn : s.connectedFor alive sender = [r]) :
    (s.send alive beh sender).2.1 = [r] := by
  by_cases h1 : s.receivers.isEmpty = true
  · exfalso
    have h0 := connectedFor_nil_of_empty alive s sender h1
    rw [hconn] at h0
    simp at h0
  · have h1' := Bool.eq_false_iff.mpr h1
    by_cases h3 : (List.lookup sender s.sender_receivers_cache
        == some CacheVal.noReceivers) = true
    · exfalso
      have h0 := connectedFor_nil_of_sentinel alive s sender hc
        (beq_iff_eq.mp h3)
      rw [hconn] at h0
      simp at h0
    · have h3' := Bool.eq_false_iff.mpr h3
      rw [send_dispatch_conn alive beh s sender hc hwr h1' h3']
      show (runSend beh (s.connectedFor alive sender)).2.1 = [r]
      rw [hconn, runSend_singleton]

theorem connectedFor_connect_init (uc : Bool) (alive : RId → Bool) (r : RId)
    (sn : Sender) (wk : Bool) (uid : Option PyVal) (sender : Sender)
    (halive : alive r = true) :
    ((Signal.init uc).connect alive r sn wk uid).connectedFor alive sender
      = if (sn == none || sn == sender) then [r] else [] := by
  rw [Signal.connectedFor, Signal.matchingHandles, connect_init_receivers]
  by_cases hm : (sn == none || sn == sender) = true <;>
    cases wk <;>
      simp [matchesSender, lookupKey_snd, Handle.deref, halive, hm]


/-! ### Preservation of the caching mode along a run -/

theorem live_receivers_use_caching (alive : RId → Bool) (s : Signal)
    (sender : Sender) :
    ((s.live_receivers alive sender).2).use_caching = s.use_caching := by
  rcases live_receivers_snd_cases alive s sender with h | h | ⟨v, h⟩ <;> rw [h]
  · exact clearDead_use_caching alive s
  · exact clearDead_use_caching alive s

theorem step_use_caching (beh : RId → Except PyErr Nat) (excTb : RId → Nat)
    (w : World) (op : Op) :
    ((w.step beh excTb op).sig).use_caching = w.sig.use_caching := by
  cases op with
  | connect r sender weak uid => exact connect_use_caching _ _ _ _ _ _
  | disconnect r sender uid => exact disconnect_use_caching _ _ _ _ _
  | send sender =>
      show ((w.sig.send w.alive beh sender).2.2).use_caching = _
      rcases send_snd_cases w.alive beh w.sig sender with h | h <;> rw [h]
      exact live_receivers_use_caching _ _ _
  | sendRobust sender =>
      show ((w.sig.send_robust w.alive beh excTb sender).2).use_caching = _
      rcases send_robust_snd_cases w.alive beh excTb w.sig sender with h | h <;>
        rw [h]
      exact live_receivers_use_caching _ _ _
  | gcDie r =>
      simp only [World.step]
      split <;> rfl

theorem run_use_caching (beh : RId → Except PyErr Nat) (excTb : RId → Nat)
    (ops : List Op) (w : World) :
    ((w.run beh excTb ops).sig).use_caching = w.sig.use_caching := by
  induction ops generalizing w with
  | nil => rfl
  | cons op ops ih => exact (ih _).trans (step_use_caching beh excTb w op)

/-! ### Claim theorems -/

/-- C3 (amended): after any sequence of connect/disconnect/send/GC
operations, with caching enabled or disabled, the receivers invoked by
`send(sender)` (for a behaviour in which no receiver raises) are exactly
those currently connected with sender `None` or with a matching sender
identity, regardless of the state of the sender cache — provided the
dispatch's cache access cannot raise, i.e. caching is disabled or the
sender is a weakly referenceable object (not `None`). Without that proviso
the cache get of `send` raises `TypeError` and nothing is invoked. -/
theorem send_invocations_cache_transparent (uc : Bool)
    (beh beh2 : RId → Except PyErr Nat) (excTb : RId → Nat) (val : RId → Nat)
    (ops : List Op) (sender : Sender)
    (hok : ∀ r, beh2 r = Except.ok (val r))
    (hwr : (uc && sender.isNone) = false) :
    let w := (World.init uc).run beh excTb ops
    (w.sig.send w.alive beh2 sender).2.1 = w.sig.connectedFor w.alive sender := by
  intro w
  have hu : w.sig.use_caching = uc := run_use_caching beh excTb ops (World.init uc)
  exact send_trace_connected w.alive beh2 val w.sig sender
    (run_cacheOK beh excTb ops (World.init uc) (cacheOK_of_cache_nil _ _ rfl))
    (by rw [hu]; exact hwr) hok

theorem send_invocations_cache_transparent_witness :
    (((World.init true).run (fun r => Except.ok r) (fun _ => 0)
        [Op.connect 1 (some 5) true none, Op.connect 2 (some 5) false none,
         Op.send (some 5), Op.gcDie 1]).sig.send
      ((World.init true).run (fun r => Except.ok r) (fun _ => 0)
        [Op.connect 1 (some 5) true none, Op.connect 2 (some 5) false none,
         Op.send (some 5), Op.gcDie 1]).alive (fun r => Except.ok r)
      (some 5)).2.1 = [2] :=
  (send_invocations_cache_transparent true (fun r => Except.ok r)
    (fun r => Except.ok r) (fun _ => 0) (fun r => r)
    [Op.connect 1 (some 5) true none, Op.connect 2 (some 5) false none,
     Op.send (some 5), Op.gcDie 1] (some 5) (fun _ => rfl) rfl).trans (by decide)

theorem send_invocations_cache_transparent_cex :
    (((World.init true).run (fun x => Except.ok x) (fun _ => 0)
        [Op.connect 1 none false none]).sig.connectedFor
      ((World.init true).run (fun x => Except.ok x) (fun _ => 0)
        [Op.connect 1 none false none]).alive none) = [1]
      ∧ (((World.init true).run (fun x => Except.ok x) (fun _ => 0)
          [Op.connect 1 none false none]).sig.send
        ((World.init true).run (fun x => Except.ok x) (fun _ => 0)
          [Op.connect 1 none false none]).alive (fun x => Except.ok x)
        none).2.1 = []
      ∧ (((World.init true).run (fun x => Except.ok x) (fun _ => 0)
          [Op.connect 1 none false none]).sig.send
        ((World.init true).run (fun x => Except.ok x) (fun _ => 0)
          [Op.connect 1 none false none]).alive (fun x => Except.ok x)
        none).2.1
        ≠ (((World.init true).run (fun x => Except.ok x) (fun _ => 0)
            [Op.connect 1 none false none]).sig.connectedFor
          ((World.init true).run (fun x => Except.ok x) (fun _ => 0)
            [Op.connect 1 none false none]).alive none) :=
  ⟨by decide, by decide, by decide⟩

/-- C10: when a signal is created with use_caching = False, the sender cache
remains empty after every operation, the NO_RECEIVERS fast paths can never
trigger (no lookup ever succeeds), and every dispatch recomputes the live
list by rescanning the (compacted) receiver table, returning it normally
(the plain dict raises no TypeError for any sender). -/
theorem no_caching_cache_always_empty (beh : RId → Except PyErr Nat)
    (excTb : RId → Nat) (ops : List Op) (sender : Sender) :
    let w := (World.init false).run beh excTb ops
    w.sig.sender_receivers_cache = []
      ∧ w.sig.use_caching = false
      ∧ List.lookup sender w.sig.sender_receivers_cache = none
      ∧ w.sig.live_receivers w.alive sender
          = (Except.ok (w.sig.connectedFor w.alive sender),
             w.sig.clearDead w.alive) := by
  intro w
  have h := run_nocache beh excTb ops (World.init false) rfl rfl
  have h1 : w.sig.use_caching = false := h.1
  have h2 : w.sig.sender_receivers_cache = [] := h.2
  refine ⟨h2, h1, ?_, ?_⟩
  · rw [h2]; rfl
  · rw [live_receivers_to_recompute w.alive w.sig sender (Or.inl (by simp [h1])),
      liveRecompute_not_caching w.alive w.sig sender h1]

/-- C7: every call to `connect` leaves the sender cache empty on return —
also when the duplicate-key no-op branch was taken — and besides the
receiver table (compaction plus the possible append), the dead-receivers
flag and the cache, no other state changes: the caching mode and the set of
collected receivers are untouched. -/
theorem connect_clears_cache_frame (beh : RId → Except PyErr Nat)
    (excTb : RId → Nat) (w : World) (r : RId) (sn : Sender) (wk : Bool)
    (uid : Option PyVal) :
    let w' := w.step beh excTb (Op.connect r sn wk uid)
    w'.sig.sender_receivers_cache = []
      ∧ w'.sig.use_caching = w.sig.use_caching
      ∧ w'.sig.dead_receivers = false
      ∧ w'.deadSet = w.deadSet
      ∧ (w'.sig.receivers = (w.sig.clearDead w.alive).receivers
          ∨ w'.sig.receivers
              = (w.sig.clearDead w.alive).receivers
                  ++ [(lookupKey uid (some r) sn,
                       if wk then Handle.weak r else Handle.strong r)])
      ∧ (((w.sig.clearDead w.alive).receivers.any
            fun e => e.1 = lookupKey uid (some r) sn) = true →
          w'.sig.receivers = (w.sig.clearDead w.alive).receivers) := by
  intro w'
  refine ⟨connect_cache _ _ _ _ _ _, connect_use_caching _ _ _ _ _ _,
    connect_flag _ _ _ _ _ _, rfl, ?_, ?_⟩
  · show (w.sig.connect w.alive r sn wk uid).receivers = _
        ∨ (w.sig.connect w.alive r sn wk uid).receivers = _
    rw [connect_receivers]
    by_cases hany : ((w.sig.clearDead w.alive).receivers.any
        fun e => e.1 = lookupKey uid (some r) sn) = true
    · left; rw [if_pos hany]
    · right; rw [if_neg hany]
  · intro hany
    show (w.sig.connect w.alive r sn wk uid).receivers = _
    rw [connect_receivers, if_pos hany]

theorem connect_clears_cache_frame_witness :
    (((World.init true).run (fun r => Except.ok r) (fun _ => 0)
        [Op.connect 1 (some 5) true none]).step (fun r => Except.ok r)
        (fun _ => 0) (Op.connect 1 (some 5) true none)).sig.sender_receivers_cache
        = []
      ∧ (((World.init true).run (fun r => Except.ok r) (fun _ => 0)
          [Op.connect 1 (some 5) true none]).step (fun r => Except.ok r)
          (fun _ => 0) (Op.connect 1 (some 5) true none)).sig.receivers
        = ((((World.init true).run (fun r => Except.ok r) (fun _ => 0)
            [Op.connect 1 (some 5) true none]).sig.clearDead
            ((World.init true).run (fun r => Except.ok r) (fun _ => 0)
              [Op.connect 1 (some 5) true none]).alive)).receivers := by
  have h := connect_clears_cache_frame (fun r => Except.ok r) (fun _ => 0)
    ((World.init true).run (fun r => Except.ok r) (fun _ => 0)
      [Op.connect 1 (some 5) true none]) 1 (some 5) true none
  exact ⟨h.1, h.2.2.2.2.2 (by decide)⟩

/-- C1 (amended): for a `send` whose cache access cannot raise — caching
disabled or a weakly referenceable (non-None) sender — the matching live
receivers are invoked in table order: when no receiver raises, `send`
returns the ordered `(receiver, response)` pairs for all of them; the first
receiver that raises makes `send` propagate that receiver's error
immediately, aborting the remaining invocations, the response pairs
accumulated up to that point being exactly those of the receivers invoked
before the failure. Without the proviso, `send(None)` on a caching signal
with a non-empty table raises `TypeError` from the cache get before
invoking any receiver (see the counterexample). -/
theorem send_fail_fast (alive : RId → Bool) (beh : RId → Except PyErr Nat)
    (s : Signal) (sender : Sender) (val : RId → Nat) (e : PyErr)
    (hc : s.CacheOK alive)
    (hwr : (s.use_caching && sender.isNone) = false) :
    ((∀ r ∈ s.connectedFor alive sender, beh r = Except.ok (val r)) →
      (s.send alive beh sender).1
          = Except.ok ((s.connectedFor alive sender).map fun r => (r, val r))
        ∧ (s.send alive beh sender).2.1 = s.connectedFor alive sender)
    ∧ ∀ l1 b l2, s.connectedFor alive sender = l1 ++ b :: l2 →
        (∀ r ∈ l1, beh r = Except.ok (val r)) → beh b = Except.error e →
        (s.send alive beh sender).1 = Except.error (SendErr.receiver e)
          ∧ (s.send alive beh sender).2.1 = l1 ++ [b]
          ∧ (runSend beh (s.connectedFor alive sender)).1
              = l1.map fun r => (r, val r) := by
  by_cases h1 : s.receivers.isEmpty = true
  · have hconn := connectedFor_nil_of_empty alive s sender h1
    rw [send_fast_empty alive beh s sender h1, hconn]
    constructor
    · intro _
      exact ⟨rfl, rfl⟩
    · intro l1 b l2 hdec
      simp at hdec
  · have h1' := Bool.eq_false_iff.mpr h1
    by_cases h3 : (List.lookup sender s.sender_receivers_cache
        == some CacheVal.noReceivers) = true
    · have hconn := connectedFor_nil_of_sentinel alive s sender hc
        (beq_iff_eq.mp h3)
      rw [send_fast_sentinel alive beh s sender h1' hwr h3, hconn]
      constructor
      · intro _
        exact ⟨rfl, rfl⟩
      · intro l1 b l2 hdec
        simp at hdec
    · have h3' := Bool.eq_false_iff.mpr h3
      rw [send_dispatch_conn alive beh s sender hc hwr h1' h3']
      constructor
      · intro hok
        rw [runSend_all_ok beh val _ hok]
        exact ⟨rfl, rfl⟩
      · intro l1 b l2 hdec hok hb
        rw [hdec, runSend_fail beh val l1 b l2 e hok hb]
        exact ⟨rfl, rfl, rfl⟩

theorem send_fail_fast_witness :
    (((((Signal.init false).connect (fun _ => true) 1 none true none).connect
          (fun _ => true) 2 none true none).connect
          (fun _ => true) 3 none true none).send (fun _ => true)
        (fun r => if r = 2 then Except.error ⟨9, none⟩ else Except.ok (r * 11))
        none).1
        = Except.error (SendErr.receiver ⟨9, none⟩)
      ∧ (((((Signal.init false).connect (fun _ => true) 1 none true none).connect
            (fun _ => true) 2 none true none).connect
            (fun _ => true) 3 none true none).send (fun _ => true)
          (fun r => if r = 2 then Except.error ⟨9, none⟩ else Except.ok (r * 11))
          none).2.1
        = [1, 2] := by
  have h := (send_fail_fast (fun _ => true)
      (fun r => if r = 2 then Except.error ⟨9, none⟩ else Except.ok (r * 11))
      ((((Signal.init false).connect (fun _ => true) 1 none true none).connect
          (fun _ => true) 2 none true none).connect
          (fun _ => true) 3 none true none)
      none (fun r => r * 11) ⟨9, none⟩
      (cacheOK_of_cache_nil _ _ rfl) rfl).2 [1] 2 [3] (by decide)
      (by intro r hr; rw [List.mem_singleton] at hr; subst hr; rfl) rfl
  exact ⟨h.1, h.2.1⟩

theorem send_fail_fast_cex :
    (((World.init true).run (fun x => Except.ok x) (fun _ => 0)
        [Op.connect 1 none false none]).sig.connectedFor
      ((World.init true).run (fun x => Except.ok x) (fun _ => 0)
        [Op.connect 1 none false none]).alive none) = [1]
      ∧ (((World.init true).run (fun x => Except.ok x) (fun _ => 0)
          [Op.connect 1 none false none]).sig.send
        ((World.init true).run (fun x => Except.ok x) (fun _ => 0)
          [Op.connect 1 none false none]).alive (fun x => Except.ok x)
        none).2.1 = []
      ∧ (((World.init true).run (fun x => Except.ok x) (fun _ => 0)
          [Op.connect 1 none false none]).sig.send
        ((World.init true).run (fun x => Except.ok x) (fun _ => 0)
          [Op.connect 1 none false none]).alive (fun x => Except.ok x)
        none).1 = Except.error SendErr.typeError :=
  ⟨by decide, by decide, rfl⟩

/-- C2 (amended): for a `send_robust` whose cache access cannot raise —
caching disabled or a weakly referenceable (non-None) sender — the same
ordered receiver list as `send` is resolved and invoked, a raising
receiver's error is recorded in place of its result — with the interpreter
traceback attached when the error lacks one and retained when present —
dispatch continues so every matching receiver is attempted, and a
receiver's error is never propagated (the latter holds unconditionally).
Without the proviso, `send_robust(None)` on a caching signal with a
non-empty table raises `TypeError` at the cache get, outside the
per-receiver try, and attempts no receiver (see the counterexample). -/
theorem send_robust_catches_and_continues (alive : RId → Bool)
    (beh : RId → Except PyErr Nat) (excTb : RId → Nat) (s : Signal)
    (sender : Sender) (hc : s.CacheOK alive)
    (hwr : (s.use_caching && sender.isNone) = false) :
    (s.send_robust alive beh excTb sender).1
        = Except.ok ((s.connectedFor alive sender).map
            fun r => (r, robustRecord beh excTb r))
      ∧ ((s.connectedFor alive sender).map
            (fun r => (r, robustRecord beh excTb r))).map Prod.fst
          = s.connectedFor alive sender
      ∧ (∀ r e', (r, RResult.err e')
            ∈ (s.connectedFor alive sender).map
                (fun r => (r, robustRecord beh excTb r)) →
          e'.traceback.isSome)
      ∧ (∀ r e t, beh r = Except.error e → e.traceback = some t →
          robustRecord beh excTb r = RResult.err e)
      ∧ (∀ e : PyErr, (s.send_robust alive beh excTb sender).1
          ≠ Except.error (SendErr.receiver e)) := by
  have hmain : (s.send_robust alive beh excTb sender).1
      = Except.ok ((s.connectedFor alive sender).map
          fun r => (r, robustRecord beh excTb r)) := by
    by_cases h1 : s.receivers.isEmpty = true
    · rw [send_robust_fast_empty alive beh excTb s sender h1,
        connectedFor_nil_of_empty alive s sender h1]
      rfl
    · have h1' := Bool.eq_false_iff.mpr h1
      by_cases h3 : (List.lookup sender s.sender_receivers_cache
          == some CacheVal.noReceivers) = true
      · rw [send_robust_fast_sentinel alive beh excTb s sender h1' hwr h3,
          connectedFor_nil_of_sentinel alive s sender hc (beq_iff_eq.mp h3)]
        rfl
      · have h3' := Bool.eq_false_iff.mpr h3
        rcases hl : s.live_receivers alive sender with ⟨res, s2⟩
        have hres : res = Except.ok (s.connectedFor alive sender) := by
          have hfst := live_receivers_fst alive s sender hc hwr
          rw [hl] at hfst
          exact hfst
        subst hres
        rw [send_robust_dispatch alive beh excTb s sender h1' hwr h3' _ _ hl,
          runRobust_eq_map]
  refine ⟨hmain, ?_, ?_, ?_, ?_⟩
  · rw [List.map_map]
    show List.map (fun r : RId => r) (s.connectedFor alive sender)
        = s.connectedFor alive sender
    simp
  · intro r e' hmem
    rcases List.mem_map.mp hmem with ⟨x, hx, hpair⟩
    have hrec : robustRecord beh excTb x = RResult.err e' := by
      have h2 := congrArg Prod.snd hpair
      simpa using h2
    exact robustRecord_traceback beh excTb x e' hrec
  · intro r e t hr ht
    exact robustRecord_retains beh excTb r e t hr ht
  · intro e
    rw [hmain]
    simp

theorem send_robust_catches_and_continues_witness :
    (((((Signal.init false).connect (fun _ => true) 1 none true none).connect
          (fun _ => true) 2 none true none).connect
          (fun _ => true) 3 none true none).send_robust (fun _ => true)
        (fun r => if r = 2 then Except.error ⟨9, none⟩ else Except.ok (r * 11))
        (fun _ => 7) none).1
      = Except.ok [(1, RResult.ok 11), (2, RResult.err ⟨9, some 7⟩),
         (3, RResult.ok 33)] :=
  ((send_robust_catches_and_continues (fun _ => true)
      (fun r => if r = 2 then Except.error ⟨9, none⟩ else Except.ok (r * 11))
      (fun _ => 7)
      ((((Signal.init false).connect (fun _ => true) 1 none true none).connect
          (fun _ => true) 2 none true none).connect
          (fun _ => true) 3 none true none)
      none (cacheOK_of_cache_nil _ _ rfl) rfl).1).trans
    (congrArg Except.ok (by decide))

theorem send_robust_catches_and_continues_cex :
    (((World.init true).run (fun x => Except.ok x) (fun _ => 0)
        [Op.connect 1 none false none]).sig.connectedFor
      ((World.init true).run (fun x => Except.ok x) (fun _ => 0)
        [Op.connect 1 none false none]).alive none) = [1]
      ∧ (((World.init true).run (fun x => Except.ok x) (fun _ => 0)
          [Op.connect 1 none false none]).sig.send_robust
        ((World.init true).run (fun x => Except.ok x) (fun _ => 0)
          [Op.connect 1 none false none]).alive (fun x => Except.ok x)
        (fun _ => 0) none).1 = Except.error SendErr.typeError :=
  ⟨by decide, rfl⟩

/-- C5 (amended): a receiver connected with a specific sender S1 is invoked
by send(S1) but not by send(S2) for any other sender S2 nor by send(None),
because resolution selects exactly the entries whose stored sender identity
is the NONE marker or equals the dispatched sender; a receiver connected
with sender None is invoked by send for every sender value whose cache
access cannot raise — every sender when caching is disabled, every
weakly referenceable (non-None) sender when caching is enabled. With
caching enabled, send(None) raises TypeError and invokes nothing, also for
a universal receiver (see the counterexample). -/
theorem sender_scoping (uc : Bool) (beh beh2 : RId → Except PyErr Nat)
    (excTb : RId → Nat) (r1 r2 : RId) (S1 S2 : SId) (wk wk2 : Bool)
    (uid uid2 : Option PyVal) (hne : S2 ≠ S1) :
    let w1 := (World.init uc).run beh excTb [Op.connect r1 (some S1) wk uid]
    let w2 := (World.init uc).run beh excTb [Op.connect r2 none wk2 uid2]
    (w1.sig.send w1.alive beh2 (some S1)).2.1 = [r1]
      ∧ (w1.sig.send w1.alive beh2 (some S2)).2.1 = []
      ∧ (w1.sig.send w1.alive beh2 none).2.1 = []
      ∧ ∀ sender : Sender, (uc && sender.isNone) = false →
          (w2.sig.send w2.alive beh2 sender).2.1 = [r2] := by
  intro w1 w2
  have hc1 : w1.sig.CacheOK w1.alive := cacheOK_of_cache_nil _ _ rfl
  have hc2 : w2.sig.CacheOK w2.alive := cacheOK_of_cache_nil _ _ rfl
  have hu1 : w1.sig.use_caching = uc :=
    run_use_caching beh excTb [Op.connect r1 (some S1) wk uid] (World.init uc)
  have hu2 : w2.sig.use_caching = uc :=
    run_use_caching beh excTb [Op.connect r2 none wk2 uid2] (World.init uc)
  have hS12 : (S1 == S2) = false := beq_eq_false_iff_ne.mpr (Ne.symm hne)
  refine ⟨?_, ?_, ?_, ?_⟩
  · refine send_trace_single _ _ _ _ _ hc1 (by rw [hu1]; simp) ?_
    show ((Signal.init uc).connect (World.init uc).alive r1 (some S1) wk
        uid).connectedFor (World.init uc).alive (some S1) = [r1]
    rw [connectedFor_connect_init uc _ r1 (some S1) wk uid (some S1) rfl]
    simp
  · refine send_trace_empty _ _ _ _ hc1 ?_
    show ((Signal.init uc).connect (World.init uc).alive r1 (some S1) wk
        uid).connectedFor (World.init uc).alive (some S2) = []
    rw [connectedFor_connect_init uc _ r1 (some S1) wk uid (some S2) rfl]
    simp [hS12]
  · refine send_trace_empty _ _ _ _ hc1 ?_
    show ((Signal.init uc).connect (World.init uc).alive r1 (some S1) wk
        uid).connectedFor (World.init uc).alive none = []
    rw [connectedFor_connect_init uc _ r1 (some S1) wk uid none rfl]
    simp
  · intro sender hwr
    refine send_trace_single _ _ _ _ _ hc2 (by rw [hu2]; exact hwr) ?_
    show ((Signal.init uc).connect (World.init uc).alive r2 none wk2
        uid2).connectedFor (World.init uc).alive sender = [r2]
    rw [connectedFor_connect_init uc _ r2 none wk2 uid2 sender rfl]
    simp

theorem sender_scoping_witness :
    let w1 := (World.init false).run (fun r => Except.ok r) (fun _ => 0)
      [Op.connect 1 (some 5) true none]
    (w1.sig.send w1.alive (fun r => Except.ok r) (some 5)).2.1 = [1]
      ∧ (w1.sig.send w1.alive (fun r => Except.ok r) (some 6)).2.1 = []
      ∧ (w1.sig.send w1.alive (fun r => Except.ok r) none).2.1 = [] := by
  have h := sender_scoping false (fun r => Except.ok r) (fun r => Except.ok r)
    (fun _ => 0) 1 2 5 6 true true none none (by decide)
  exact ⟨h.1, h.2.1, h.2.2.1⟩

theorem sender_scoping_cex :
    (((World.init true).run (fun x => Except.ok x) (fun _ => 0)
        [Op.connect 2 none true none]).sig.connectedFor
      ((World.init true).run (fun x => Except.ok x) (fun _ => 0)
        [Op.connect 2 none true none]).alive none) = [2]
      ∧ (((World.init true).run (fun x => Except.ok x) (fun _ => 0)
          [Op.connect 2 none true none]).sig.send
        ((World.init true).run (fun x => Except.ok x) (fun _ => 0)
          [Op.connect 2 none true none]).alive (fun x => Except.ok x)
        none).2.1 = [] :=
  ⟨by decide, by decide⟩

/-- C9: a falsy dispatch_uid (for example the integer 0) is treated by both
connect and disconnect as if no dispatch_uid were given — the lookup key
falls back to (receiver identity, sender identity) — so an entry connected
with such a dispatch_uid cannot be disconnected by passing that dispatch_uid
alone (receiver None), only by passing the same receiver. -/
theorem falsy_dispatch_uid (u : PyVal) (uc wk : Bool)
    (beh : RId → Except PyErr Nat) (excTb : RId → Nat) (r : RId) (sn : Sender)
    (rcv : Option RId) (hu : u.truthy = false) :
    lookupKey (some u) rcv sn = lookupKey none rcv sn
      ∧ (let w := (World.init uc).run beh excTb [Op.connect r sn wk (some u)]
         (w.sig.disconnect w.alive none sn (some u)).1 = false
           ∧ ((w.sig.disconnect w.alive none sn (some u)).2).receivers
               = w.sig.receivers
           ∧ (w.sig.disconnect w.alive (some r) sn none).1 = true
           ∧ ((w.sig.disconnect w.alive (some r) sn none).2).receivers = []) := by
  constructor
  · unfold lookupKey
    simp [hu]
  · intro w
    have hflag : w.sig.dead_receivers = false := connect_flag _ _ _ _ _ _
    have hcd : w.sig.clearDead w.alive = w.sig :=
      clearDead_of_flag_false _ _ hflag
    have hrecv : w.sig.receivers
        = [((KeyFst.rid (some r), sn),
            if wk then Handle.weak r else Handle.strong r)] := by
      show ((Signal.init uc).connect (World.init uc).alive r sn wk
          (some u)).receivers = _
      rw [connect_init_receivers]
      unfold lookupKey
      simp [hu]
    have hkey1 : lookupKey (some u) (none : Option RId) sn
        = (KeyFst.rid none, sn) := by
      unfold lookupKey
      simp [hu]
    have hrf1 : removeFirst (lookupKey (some u) (none : Option RId) sn)
        w.sig.receivers = (false, w.sig.receivers) := by
      refine removeFirst_not_found _ _ ?_
      intro e he
      rw [hrecv] at he
      simp only [List.mem_singleton] at he
      subst he
      rw [hkey1]
      intro hcontra
      have h2 := congrArg Prod.fst hcontra
      simp at h2
    refine ⟨?_, ?_, ?_, ?_⟩
    · rw [disconnect_eq, hcd, hrf1]
    · rw [disconnect_eq, hcd, hrf1]
    · rw [disconnect_eq, hcd, hrecv]
      have : lookupKey (none : Option PyVal) (some r) sn
          = (KeyFst.rid (some r), sn) := rfl
      rw [this, removeFirst, if_pos rfl]
    · rw [disconnect_eq, hcd, hrecv]
      have : lookupKey (none : Option PyVal) (some r) sn
          = (KeyFst.rid (some r), sn) := rfl
      rw [this, removeFirst, if_pos rfl]

theorem falsy_dispatch_uid_witness :
    lookupKey (some (PyVal.num 0)) (some 1) (some 5)
        = lookupKey none (some 1) (some 5)
      ∧ (((World.init false).run (fun r => Except.ok r) (fun _ => 0)
          [Op.connect 1 (some 5) true (some (PyVal.num 0))]).sig.disconnect
          ((World.init false).run (fun r => Except.ok r) (fun _ => 0)
            [Op.connect 1 (some 5) true (some (PyVal.num 0))]).alive
          none (some 5) (some (PyVal.num 0))).1 = false := by
  have h := falsy_dispatch_uid (PyVal.num 0) false true (fun r => Except.ok r)
    (fun _ => 0) 1 (some 5) (some 1) (by decide)
  exact ⟨h.1, h.2.1⟩

/-- C4 (amended): after any operation sequence the receiver table has at
most one entry per distinct lookup key; a connect whose key is already
present is a silent no-op that neither adds nor replaces an entry; from a
fresh signal, connecting the same (receiver, sender, dispatch_uid) twice
leaves exactly one entry, and a subsequent send whose cache access cannot
raise — caching disabled or a non-None sender — invokes that receiver
exactly once. With caching enabled and sender None the send raises
TypeError and invokes it zero times (see the counterexample). -/
theorem connect_idempotent_unique_keys (uc : Bool)
    (beh beh2 : RId → Except PyErr Nat) (excTb : RId → Nat)
    (ops : List Op) (r : RId) (sn : Sender) (wk : Bool) (uid : Option PyVal)
    (alive : RId → Bool) (s : Signal)
    (hwr : (uc && sn.isNone) = false) :
    ((((World.init uc).run beh excTb ops).sig).keysNodup)
      ∧ (s.dead_receivers = false →
          (s.receivers.any fun e => e.1 = lookupKey uid (some r) sn) = true →
          (s.connect alive r sn wk uid).receivers = s.receivers)
      ∧ (let w2 := (World.init uc).run beh excTb
            [Op.connect r sn wk uid, Op.connect r sn wk uid]
         w2.sig.receivers
             = [(lookupKey uid (some r) sn,
                 if wk then Handle.weak r else Handle.strong r)]
           ∧ (w2.sig.send w2.alive beh2 sn).2.1 = [r]) := by
  refine ⟨run_keysNodup beh excTb ops (World.init uc) List.nodup_nil, ?_, ?_⟩
  · intro hflag hany
    rw [connect_receivers, clearDead_of_flag_false _ _ hflag, if_pos hany]
  · intro w2
    have hflag1 : ((Signal.init uc).connect (World.init uc).alive r sn wk
        uid).dead_receivers = false := connect_flag _ _ _ _ _ _
    have hrecv2 : w2.sig.receivers
        = [(lookupKey uid (some r) sn,
            if wk then Handle.weak r else Handle.strong r)] := by
      show (((Signal.init uc).connect (World.init uc).alive r sn wk
          uid).connect (World.init uc).alive r sn wk uid).receivers = _
      rw [connect_receivers, clearDead_of_flag_false _ _ hflag1,
        connect_init_receivers, if_pos (by simp)]
    refine ⟨hrecv2, ?_⟩
    have hc2 : w2.sig.CacheOK w2.alive := cacheOK_of_cache_nil _ _ rfl
    have hu2 : w2.sig.use_caching = uc :=
      run_use_caching beh excTb
        [Op.connect r sn wk uid, Op.connect r sn wk uid] (World.init uc)
    have halive : w2.alive r = true := rfl
    refine send_trace_single _ _ _ _ _ hc2 (by rw [hu2]; exact hwr) ?_
    rw [Signal.connectedFor, Signal.matchingHandles, hrecv2]
    cases wk <;>
      simp [matchesSender, lookupKey_snd, Handle.deref, halive]

theorem connect_idempotent_unique_keys_witness :
    (((World.init true).run (fun x => Except.ok x) (fun _ => 0)
        [Op.connect 1 (some 5) true none,
         Op.connect 1 (some 5) true none]).sig.receivers).length = 1
      ∧ ((((World.init true).run (fun x => Except.ok x) (fun _ => 0)
          [Op.connect 1 (some 5) true none,
           Op.connect 1 (some 5) true none]).sig.send
          ((World.init true).run (fun x => Except.ok x) (fun _ => 0)
            [Op.connect 1 (some 5) true none,
             Op.connect 1 (some 5) true none]).alive
          (fun x => Except.ok x) (some 5)).2.1) = [1] := by
  have h := connect_idempotent_unique_keys true (fun x => Except.ok x)
    (fun x => Except.ok x) (fun _ => 0) [] 1 (some 5) true none
    (fun _ => true) (Signal.init true) rfl
  exact ⟨by rw [h.2.2.1]; rfl, h.2.2.2⟩

theorem connect_idempotent_unique_keys_cex :
    (((World.init true).run (fun x => Except.ok x) (fun _ => 0)
        [Op.connect 1 none true none,
         Op.connect 1 none true none]).sig.receivers).length = 1
      ∧ ((((World.init true).run (fun x => Except.ok x) (fun _ => 0)
          [Op.connect 1 none true none,
           Op.connect 1 none true none]).sig.send
          ((World.init true).run (fun x => Except.ok x) (fun _ => 0)
            [Op.connect 1 none true none,
             Op.connect 1 none true none]).alive
          (fun x => Except.ok x) none).2.1) = [] :=
  ⟨by decide, by decide⟩

/-- C6: disconnect computes the same kind of lookup key as connect, removes
the first entry with that key and returns true exactly when an entry was
removed; after it, no entry with that key remains, so a repeated disconnect
— or one for a key never present, including a weakly held receiver that
garbage collection already removed — returns false, and after a disconnect
a send never invokes a receiver that no longer appears in the table. -/
theorem disconnect_correct (alive : RId → Bool)
    (beh2 : RId → Except PyErr Nat) (s : Signal) (rcv : Option RId)
    (sn : Sender) (uid : Option PyVal) (hnd : s.keysNodup) :
    ((s.disconnect alive rcv sn uid).1 = true
        ↔ ∃ e ∈ (s.clearDead alive).receivers, e.1 = lookupKey uid rcv sn)
      ∧ (((s.disconnect alive rcv sn uid).2).disconnect alive rcv sn uid).1
          = false
      ∧ (∀ e ∈ ((s.disconnect alive rcv sn uid).2).receivers,
          e.1 ≠ lookupKey uid rcv sn)
      ∧ (∀ r : RId,
          (∀ e ∈ ((s.disconnect alive rcv sn uid).2).receivers,
            e.2.target ≠ r) →
          ∀ sender : Sender,
            r ∉ (((s.disconnect alive rcv sn uid).2).send alive beh2
              sender).2.1) := by
  have hndcd : ((s.clearDead alive).receivers.map (·.1)).Nodup :=
    keysNodup_clearDead alive s hnd
  have hnosec : ∀ e ∈ ((s.disconnect alive rcv sn uid).2).receivers,
      e.1 ≠ lookupKey uid rcv sn := by
    intro e he
    rw [disconnect_eq] at he
    exact removeFirst_no_second _ _ hndcd e he
  refine ⟨?_, ?_, hnosec, ?_⟩
  · rw [disconnect_eq]
    show (removeFirst (lookupKey uid rcv sn)
        (s.clearDead alive).receivers).1 = true ↔ _
    rw [removeFirst_fst]
    simp [List.any_eq_true]
  · have hflag : ((s.disconnect alive rcv sn uid).2).dead_receivers = false :=
      disconnect_flag _ _ _ _ _
    conv_lhs =>
      rw [disconnect_eq alive ((s.disconnect alive rcv sn uid).2) rcv sn uid]
    rw [clearDead_of_flag_false _ _ hflag,
      removeFirst_not_found _ _ hnosec]
  · intro r hr sender hmem
    have hc1 : ((s.disconnect alive rcv sn uid).2).CacheOK alive :=
      cacheOK_of_cache_nil _ _ (disconnect_cache _ _ _ _ _)
    have h2 := send_trace_subset_connected alive beh2 _ sender hc1 r hmem
    rcases connectedFor_target_mem alive _ sender r h2 with ⟨e, he, htgt⟩
    exact hr e he htgt

theorem disconnect_correct_witness :
    (((World.init false).run (fun x => Except.ok x) (fun _ => 0)
        [Op.connect 1 (some 5) true none, Op.gcDie 1]).sig.disconnect
      ((World.init false).run (fun x => Except.ok x) (fun _ => 0)
        [Op.connect 1 (some 5) true none, Op.gcDie 1]).alive
      (some 1) (some 5) none).1 = false := by
  have h := (disconnect_correct
    ((World.init false).run (fun x => Except.ok x) (fun _ => 0)
      [Op.connect 1 (some 5) true none, Op.gcDie 1]).alive
    (fun x => Except.ok x)
    ((World.init false).run (fun x => Except.ok x) (fun _ => 0)
      [Op.connect 1 (some 5) true none, Op.gcDie 1]).sig
    (some 1) (some 5) none
    (run_keysNodup (fun x => Except.ok x) (fun _ => 0)
      [Op.connect 1 (some 5) true none, Op.gcDie 1] (World.init false)
      List.nodup_nil)).1
  have hP : ¬∃ e ∈ ((((World.init false).run (fun x => Except.ok x) (fun _ => 0)
      [Op.connect 1 (some 5) true none, Op.gcDie 1]).sig).clearDead
      ((World.init false).run (fun x => Except.ok x) (fun _ => 0)
        [Op.connect 1 (some 5) true none, Op.gcDie 1]).alive).receivers,
      e.1 = lookupKey none (some 1) (some 5) := by decide
  exact Bool.eq_false_iff.mpr fun ht => hP (h.mp ht)

/-- C8 (amended): for a resolution whose cache access cannot raise —
caching disabled or a weakly referenceable (non-None) sender —
`_live_receivers` returns the resolved callables in receiver-table
insertion order; on a cache miss with caching on only the weak-handle list
(or the NO_RECEIVERS sentinel for an empty match) is stored in the cache,
never the resolved live list; resolution from a cached handle list happens
afresh on every call under the aliveness of that moment, weak handles found
dead being dropped silently. With caching on, `_live_receivers(None)`
instead raises TypeError at the cache get or store (see the
counterexample). -/
theorem live_receivers_resolution (alive alive2 : RId → Bool) (s : Signal)
    (sender : Sender) (hs : List Handle) (hc : s.CacheOK alive)
    (hwr : (s.use_caching && sender.isNone) = false) :
    ((s.live_receivers alive sender).1
        = Except.ok (s.connectedFor alive sender))
      ∧ (s.use_caching = true →
          List.lookup sender s.sender_receivers_cache = none →
          List.lookup sender
              (((s.live_receivers alive sender).2).sender_receivers_cache)
            = some (if ((s.clearDead alive).matchingHandles sender).isEmpty
                then CacheVal.noReceivers
                else CacheVal.handles
                  ((s.clearDead alive).matchingHandles sender)))
      ∧ (s.use_caching = true → s.dead_receivers = false →
          List.lookup sender s.sender_receivers_cache
              = some (CacheVal.handles hs) →
          (s.live_receivers alive2 sender).1
            = Except.ok ((hs.filter (Handle.isLive alive2)).map
                Handle.target)) := by
  refine ⟨live_receivers_fst alive s sender hc hwr, ?_, ?_⟩
  · intro hu hlook
    have hn : sender.isNone = false := by
      rw [hu] at hwr; simpa using hwr
    rw [live_receivers_to_recompute alive s sender (Or.inr ⟨hn, hlook⟩),
      liveRecompute_store alive s sender hu hn]
    exact lookup_cacheSet_self _ _ _
  · intro hu hflag hlook
    have hn : sender.isNone = false := by
      rw [hu] at hwr; simpa using hwr
    rw [live_receivers_hit_handles alive2 s sender hs (by simp [hu, hflag])
      hn hlook]
    exact congrArg Except.ok (filterMap_deref alive2 hs)

theorem live_receivers_resolution_witness :
    ((⟨[((KeyFst.rid (some 1), some 5), Handle.weak 1),
        ((KeyFst.rid (some 2), some 5), Handle.weak 2)], true,
       [(some 5, CacheVal.handles [Handle.weak 1, Handle.weak 2])],
       false⟩ : Signal).live_receivers (fun x => !(x == 2)) (some 5)).1
      = Except.ok [1] := by
  have hc : (⟨[((KeyFst.rid (some 1), some 5), Handle.weak 1),
        ((KeyFst.rid (some 2), some 5), Handle.weak 2)], true,
       [(some 5, CacheVal.handles [Handle.weak 1, Handle.weak 2])],
       false⟩ : Signal).CacheOK (fun _ => true) := by
    intro sn
    by_cases hsn : sn = (some 5 : Sender)
    · subst hsn
      constructor
      · intro hl
        simp [List.lookup] at hl
      · intro hs2 hl
        simp only [List.lookup] at hl
        rw [show ((some 5 : Sender) == some 5) = true from rfl] at hl
        injection hl with h1
        injection h1 with h2
        subst h2
        decide
    · have hb : (sn == (some 5 : Sender)) = false :=
        beq_eq_false_iff_ne.mpr hsn
      constructor
      · intro hl
        simp [List.lookup, hb] at hl
      · intro hs2 hl
        simp [List.lookup, hb] at hl
  have h := (live_receivers_resolution (fun _ => true) (fun x => !(x == 2))
    (⟨[((KeyFst.rid (some 1), some 5), Handle.weak 1),
        ((KeyFst.rid (some 2), some 5), Handle.weak 2)], true,
       [(some 5, CacheVal.handles [Handle.weak 1, Handle.weak 2])],
       false⟩ : Signal) (some 5) [Handle.weak 1, Handle.weak 2] hc rfl).2.2
    rfl rfl rfl
  exact h.trans (congrArg Except.ok (by decide))

theorem live_receivers_resolution_cex :
    ((⟨[((KeyFst.rid (some 1), none), Handle.strong 1)], true, [],
       false⟩ : Signal).live_receivers (fun _ => true) none).1
        = Except.error SendErr.typeError
      ∧ (⟨[((KeyFst.rid (some 1), none), Handle.strong 1)], true, [],
         false⟩ : Signal).connectedFor (fun _ => true) none = [1] :=
  ⟨rfl, by decide⟩

end Dispatch
